import Mathlib

/-!
Verification development for the graphics-course practice repository.

Each C++ program is embedded shallowly: pure per-frame computations become
Lean functions over `ℚ` (exact arithmetic standing for the C++ `float`
expressions), stateful event loops become explicit state-passing step
functions, and code that can fail becomes functions into an outcome type.
External library calls (`glm::distance`, `std::hypot`, the frustum/AABB
intersection helper whose header is not part of the sources) are passed in
as opaque function parameters, since their implementation is not in the
repository sources under verification.
-/

namespace GCP

/-- A 3-component vector with exact rational coordinates, standing for
`glm::vec3` in `practice14/main.cpp`. -/
structure V3 where
  x : ℚ
  y : ℚ
  z : ℚ
deriving DecidableEq, Repr

/-- Componentwise addition of `glm::vec3` values. -/
def vadd (a b : V3) : V3 := ⟨a.x + b.x, a.y + b.y, a.z + b.z⟩

/-- An axis-aligned bounding box, standing for `aabb` in
`practice14/main.cpp` (constructed from a min corner and a max corner). -/
structure Aabb where
  lo : V3
  hi : V3
deriving DecidableEq, Repr

/-- The AABB tested for grid offset `o` in `practice14/main.cpp` lines
412-413: `aabb(input_model.meshes[0].min + current_offset,
input_model.meshes[0].max + current_offset)`. -/
def aabbAt (mmin mmax o : V3) : Aabb := ⟨vadd mmin o, vadd mmax o⟩

/-- The grid offset `{i - 32, 0, j - 32}` visited at loop indices
`(i, j)` of the nested loops at `practice14/main.cpp` lines 408-411
(`num = 32`, loop variables running from `-num` to `num - 1`). -/
def gridAt (i j : ℕ) : V3 :=
  ⟨(((i : ℤ) - 32 : ℤ) : ℚ), 0, (((j : ℤ) - 32 : ℤ) : ℚ)⟩

/-- The candidate grid offsets `(i, 0, j)` for `-32 <= i < 32`,
`-32 <= j < 32`, in the iteration order of the nested loops at
`practice14/main.cpp` lines 408-409. -/
def gridOffsets : List V3 :=
  (List.range 64).flatMap (fun i => (List.range 64).map (gridAt i))

/-- The frustum-culling loop of `practice14/main.cpp` lines 405-416: for
each candidate grid offset, if the translated bounding box passes the
frustum test, push it onto `frustum_offsets`.  The intersection test
`intersect(proj_view_frustum, current_aabb)` lives in `intersect.hpp`,
which is not among the sources, so it is taken as an opaque parameter
`test` (with the frustum `projection * view` already baked in). -/
def frustumPass (test : Aabb → Bool) (mmin mmax : V3) : List V3 :=
  (List.range 64).foldl (fun acc i =>
    (List.range 64).foldl (fun acc2 j =>
      if test (aabbAt mmin mmax (gridAt i j)) then acc2 ++ [gridAt i j]
      else acc2) acc) []

/-- C++ float-to-int conversion (truncation toward zero) on an exact
rational value, as in `int lod = distance / 5;` at `practice14/main.cpp`
line 422. -/
def cppTrunc (q : ℚ) : ℤ := if 0 ≤ q then ⌊q⌋ else -⌊-q⌋

/-- The LOD band index computed at `practice14/main.cpp` lines 422-424:
`int lod = distance / 5; if (lod >= lod_offsets.size()) lod =
lod_offsets.size() - 1;` where the bucket vector has `N` entries. -/
def lodIndex (N : ℕ) (d : ℚ) : ℤ :=
  let lod := cppTrunc (d / 5)
  if (N : ℤ) ≤ lod then (N : ℤ) - 1 else lod

/-- The band index as the natural number used to index the bucket vector. -/
def lodIndexNat (N : ℕ) (d : ℚ) : ℕ := (lodIndex N d).toNat

/-- `lod_offsets[lod].push_back(v)`: append `v` to the `i`-th bucket,
leaving the other buckets unchanged. -/
def pushAt : List (List V3) → ℕ → V3 → List (List V3)
  | [], _, _ => []
  | b :: bs, 0, v => (b ++ [v]) :: bs
  | b :: bs, n + 1, v => b :: pushAt bs n v

/-- The LOD-bucketing loop of `practice14/main.cpp` lines 418-426: start
from `N` empty buckets (`N = vbos.size()`, the number of LOD meshes) and
push every visible offset onto the bucket selected by `lodIndex` of its
camera distance.  `glm::distance(camera_position, offset)` is library
code, so the distance function is an opaque parameter `dist`. -/
def lodBucket (N : ℕ) (dist : V3 → ℚ) (offs : List V3) : List (List V3) :=
  offs.foldl (fun acc o => pushAt acc (lodIndexNat N (dist o)) o)
    (List.replicate N [])

/-- The per-band instance counts passed to `glDrawElementsInstanced` in the
draw loop of `practice14/main.cpp` lines 448-456 (`lod_offsets[lod].size()`,
one draw per band). -/
def drawInstanceCounts (bands : List (List V3)) : List ℕ :=
  bands.map List.length

/-- The whole per-frame culling-and-bucketing pass of
`practice14/main.cpp` lines 405-426: the visible offset list followed by
the per-band offset lists. -/
def cullAndBucket (test : Aabb → Bool) (dist : V3 → ℚ) (N : ℕ)
    (mmin mmax : V3) : List V3 × List (List V3) :=
  let vis := frustumPass test mmin mmax
  (vis, lodBucket N dist vis)

/- ### Helper lemmas for the culling / bucketing pass -/

theorem foldl_pushback_eq_filter (p : V3 → Bool) (f : ℕ → V3) :
    ∀ (l : List ℕ) (init : List V3),
      l.foldl (fun acc j => if p (f j) then acc ++ [f j] else acc) init
        = init ++ (l.map f).filter p := by
  intro l
  induction l with
  | nil => intro init; simp
  | cons a t ih =>
    intro init
    by_cases h : p (f a) = true
    · simp [List.foldl_cons, h, ih, List.filter_cons]
    · simp only [Bool.not_eq_true] at h
      simp [List.foldl_cons, h, ih, List.filter_cons]

theorem frustumPass_eq_filter (test : Aabb → Bool) (mmin mmax : V3) :
    frustumPass test mmin mmax
      = gridOffsets.filter (fun o => test (aabbAt mmin mmax o)) := by
  unfold frustumPass gridOffsets
  have inner : ∀ (i : ℕ) (acc : List V3),
      (List.range 64).foldl (fun acc2 j =>
        if test (aabbAt mmin mmax (gridAt i j)) then acc2 ++ [gridAt i j]
        else acc2) acc
      = acc ++ ((List.range 64).map (gridAt i)).filter
            (fun o => test (aabbAt mmin mmax o)) := by
    intro i acc
    exact foldl_pushback_eq_filter (fun o => test (aabbAt mmin mmax o))
      (gridAt i) (List.range 64) acc
  have outer : ∀ (l : List ℕ) (acc : List V3),
      l.foldl (fun acc i =>
        (List.range 64).foldl (fun acc2 j =>
          if test (aabbAt mmin mmax (gridAt i j)) then acc2 ++ [gridAt i j]
          else acc2) acc) acc
      = acc ++ (l.flatMap (fun i => (List.range 64).map (gridAt i))).filter
            (fun o => test (aabbAt mmin mmax o)) := by
    intro l
    induction l with
    | nil => intro acc; simp
    | cons a t ih =>
      intro acc
      simp only [List.foldl_cons, List.flatMap_cons, List.filter_append]
      rw [inner a acc, ih, List.append_assoc]
  simpa using outer (List.range 64) []

theorem mem_gridOffsets_of_bounds (i j : ℤ) (hi0 : -32 ≤ i) (hi1 : i < 32)
    (hj0 : -32 ≤ j) (hj1 : j < 32) :
    (⟨(i : ℚ), 0, (j : ℚ)⟩ : V3) ∈ gridOffsets := by
  unfold gridOffsets
  rw [List.mem_flatMap]
  refine ⟨(i + 32).toNat, ?_, ?_⟩
  · rw [List.mem_range]
    omega
  · rw [List.mem_map]
    refine ⟨(j + 32).toNat, ?_, ?_⟩
    · rw [List.mem_range]
      omega
    · have hi2 : (((i + 32).toNat : ℤ) - 32 : ℤ) = i := by omega
      have hj2 : (((j + 32).toNat : ℤ) - 32 : ℤ) = j := by omega
      unfold gridAt
      rw [hi2, hj2]

theorem pushAt_length (ls : List (List V3)) (i : ℕ) (v : V3) :
    (pushAt ls i v).length = ls.length := by
  induction ls generalizing i with
  | nil => rfl
  | cons b bs ih =>
    cases i with
    | zero => rfl
    | succ n => simp [pushAt, ih]

theorem perm_cons_swap (b J : List V3) (v : V3) :
    (b ++ [v] ++ J).Perm (v :: (b ++ J)) := by
  have h1 : (b ++ [v]).Perm ([v] ++ b) := List.perm_append_comm
  have h2 : (b ++ [v] ++ J).Perm (([v] ++ b) ++ J) := h1.append_right J
  simpa using h2

theorem pushAt_join_perm (ls : List (List V3)) (i : ℕ) (v : V3)
    (h : i < ls.length) : (pushAt ls i v).join.Perm (v :: ls.join) := by
  induction ls generalizing i with
  | nil => simp at h
  | cons b bs ih =>
    cases i with
    | zero =>
      simp only [pushAt, List.join_cons]
      exact perm_cons_swap b bs.join v
    | succ n =>
      simp only [pushAt, List.join_cons]
      have hn : n < bs.length := by simpa using h
      have h1 : (b ++ (pushAt bs n v).join).Perm (b ++ (v :: bs.join)) :=
        (ih n hn).append_left b
      have h2 : (b ++ [v] ++ bs.join).Perm (v :: (b ++ bs.join)) :=
        perm_cons_swap b bs.join v
      have h3 : b ++ (v :: bs.join) = b ++ [v] ++ bs.join := by simp
      rw [h3] at h1
      exact h1.trans h2

theorem pushAt_getElem_self (ls : List (List V3)) (i : ℕ) (v : V3)
    (h : i < ls.length) :
    v ∈ (pushAt ls i v).get ⟨i, by rw [pushAt_length]; exact h⟩ := by
  induction ls generalizing i with
  | nil => simp at h
  | cons b bs ih =>
    cases i with
    | zero => simp [pushAt]
    | succ n =>
      have hn : n < bs.length := by simpa using h
      simpa [pushAt] using ih n hn

theorem pushAt_getElem_mono (ls : List (List V3)) (i k : ℕ) (v w : V3)
    (hk : k < ls.length)
    (h : w ∈ ls.get ⟨k, hk⟩) :
    w ∈ (pushAt ls i v).get ⟨k, by rw [pushAt_length]; exact hk⟩ := by
  induction ls generalizing i k with
  | nil => simp at hk
  | cons b bs ih =>
    cases i with
    | zero =>
      cases k with
      | zero => simp only [pushAt, List.get]; simp only [List.get] at h
                exact List.mem_append_left _ h
      | succ m => simpa [pushAt] using h
    | succ n =>
      cases k with
      | zero => simpa [pushAt] using h
      | succ m =>
        have hm : m < bs.length := by simpa using hk
        simp only [pushAt, List.get]
        simp only [List.get] at h
        exact ih n m hm h

theorem lodIndexNat_lt (N : ℕ) (d : ℚ) (hN : 1 ≤ N) : lodIndexNat N d < N := by
  unfold lodIndexNat lodIndex
  by_cases h : (N : ℤ) ≤ cppTrunc (d / 5)
  · simp only [h, if_pos]
    omega
  · simp only [h, if_neg, not_false_iff]
    push_neg at h
    omega

theorem lodIndexNat_eq_min (N : ℕ) (d : ℚ) (hN : 1 ≤ N) (hd : 0 ≤ d) :
    lodIndexNat N d = min (Int.toNat ⌊d / 5⌋) (N - 1) := by
  unfold lodIndexNat lodIndex cppTrunc
  have h5 : (0 : ℚ) ≤ d / 5 := by positivity
  rw [if_pos h5]
  have hfl : 0 ≤ ⌊d / 5⌋ := Int.floor_nonneg.mpr h5
  by_cases h : (N : ℤ) ≤ ⌊d / 5⌋
  · rw [if_pos h]
    omega
  · rw [if_neg h]
    push_neg at h
    omega

theorem lodBucket_length (N : ℕ) (dist : V3 → ℚ) (offs : List V3) :
    (lodBucket N dist offs).length = N := by
  unfold lodBucket
  have : ∀ (l : List V3) (acc : List (List V3)),
      (l.foldl (fun acc o => pushAt acc (lodIndexNat N (dist o)) o)
        acc).length = acc.length := by
    intro l
    induction l with
    | nil => intro acc; rfl
    | cons a t ih => intro acc; rw [List.foldl_cons, ih, pushAt_length]
  rw [this, List.length_replicate]

theorem lodBucket_join_perm (N : ℕ) (dist : V3 → ℚ) (offs : List V3)
    (hN : 1 ≤ N) : (lodBucket N dist offs).join.Perm offs := by
  unfold lodBucket
  have key : ∀ (l : List V3) (acc : List (List V3)), acc.length = N →
      (l.foldl (fun acc o => pushAt acc (lodIndexNat N (dist o)) o)
        acc).join.Perm (acc.join ++ l) := by
    intro l
    induction l with
    | nil => intro acc _; simp [List.Perm.refl]
    | cons a t ih =>
      intro acc hacc
      rw [List.foldl_cons]
      have hlen : (pushAt acc (lodIndexNat N (dist a)) a).length = N := by
        rw [pushAt_length]; exact hacc
      have step := pushAt_join_perm acc (lodIndexNat N (dist a)) a
        (by rw [hacc]; exact lodIndexNat_lt N (dist a) hN)
      have h1 := ih (pushAt acc (lodIndexNat N (dist a)) a) hlen
      have h2 : ((pushAt acc (lodIndexNat N (dist a)) a).join ++ t).Perm
          ((a :: acc.join) ++ t) := step.append_right t
      have h3 : ((a :: acc.join) ++ t).Perm (acc.join ++ (a :: t)) := by
        have hm : (acc.join ++ a :: t).Perm (a :: (acc.join ++ t)) :=
          List.perm_middle
        simpa using hm.symm
      exact (h1.trans h2).trans h3
  have hkey := key offs (List.replicate N []) (by simp)
  have hrep : (List.replicate N ([] : List V3)).join = [] := by
    induction N with
    | zero => rfl
    | succ n ih => simpa [List.replicate_succ] using ih
  rw [hrep] at hkey
  simpa using hkey

theorem lodBucket_mem_band (N : ℕ) (dist : V3 → ℚ) (offs : List V3)
    (hN : 1 ≤ N) (o : V3) (ho : o ∈ offs) :
    o ∈ (lodBucket N dist offs).get
      ⟨lodIndexNat N (dist o), by
        rw [lodBucket_length]; exact lodIndexNat_lt N (dist o) hN⟩ := by
  unfold lodBucket
  have key : ∀ (l : List V3) (acc : List (List V3)) (hacc : acc.length = N)
      (v : V3) (hv : v ∈ l ∨ (∃ hvk : lodIndexNat N (dist v) < acc.length,
        v ∈ acc.get ⟨lodIndexNat N (dist v), hvk⟩)),
      ∃ hk : lodIndexNat N (dist v)
          < (l.foldl (fun acc o => pushAt acc (lodIndexNat N (dist o)) o)
              acc).length,
        v ∈ (l.foldl (fun acc o => pushAt acc (lodIndexNat N (dist o)) o)
              acc).get ⟨lodIndexNat N (dist v), hk⟩ := by
    intro l
    induction l with
    | nil =>
      intro acc hacc v hv
      rcases hv with h | ⟨hk, h⟩
      · simp at h
      · exact ⟨hk, h⟩
    | cons a t ih =>
      intro acc hacc v hv
      rw [List.foldl_cons]
      have hlen : (pushAt acc (lodIndexNat N (dist a)) a).length = N := by
        rw [pushAt_length]; exact hacc
      rcases hv with h | ⟨hk, h⟩
      · rcases List.mem_cons.mp h with rfl | hmem
        · refine ih _ hlen v (Or.inr ?_)
          refine ⟨by rw [hlen]; exact lodIndexNat_lt N (dist v) hN, ?_⟩
          exact pushAt_getElem_self acc _ v
            (by rw [hacc]; exact lodIndexNat_lt N (dist v) hN)
        · exact ih _ hlen v (Or.inl hmem)
      · refine ih _ hlen v (Or.inr ?_)
        refine ⟨by rw [hlen]; exact hacc ▸ hk, ?_⟩
        exact pushAt_getElem_mono acc _ _ a v hk h
  obtain ⟨hk, h⟩ := key offs (List.replicate N []) (by simp) o (Or.inl ho)
  exact h

theorem lodBucket_subset (N : ℕ) (dist : V3 → ℚ) (offs : List V3)
    (hN : 1 ≤ N) (b : List V3) (hb : b ∈ lodBucket N dist offs)
    (v : V3) (hv : v ∈ b) : v ∈ offs := by
  have hj : v ∈ (lodBucket N dist offs).join :=
    List.mem_join.mpr ⟨b, hb, hv⟩
  exact (lodBucket_join_perm N dist offs hN).mem_iff.mp hj

/-- C1: in the instanced-rendering program (practice14), every grid offset
that passes the frustum test is placed into exactly one of `N` distance
bands, where `N` is the number of LOD meshes loaded and the band index is
`min(floor(distance(camera, offset) / 5), N - 1)`; the bands partition the
visible set (the sum of band sizes equals the number of visible offsets),
and one instanced draw is issued per band with instance count equal to
that band's size. -/
theorem c1_lod_banding (N : ℕ) (dist : V3 → ℚ) (offs : List V3)
    (hN : 1 ≤ N) (hd : ∀ o ∈ offs, 0 ≤ dist o) :
    (lodBucket N dist offs).length = N
    ∧ ((lodBucket N dist offs).map List.length).sum = offs.length
    ∧ (lodBucket N dist offs).join.Perm offs
    ∧ (∀ o, ∀ ho : o ∈ offs,
        o ∈ (lodBucket N dist offs).get
          ⟨min (Int.toNat ⌊dist o / 5⌋) (N - 1), by
            rw [lodBucket_length]
            exact lt_of_le_of_lt (min_le_right _ _) (by omega)⟩)
    ∧ (drawInstanceCounts (lodBucket N dist offs)).length = N
    ∧ (∀ k, ∀ hk : k < (lodBucket N dist offs).length,
        (drawInstanceCounts (lodBucket N dist offs)).get
            ⟨k, by simpa [drawInstanceCounts] using hk⟩
          = ((lodBucket N dist offs).get ⟨k, hk⟩).length) := by
  refine ⟨lodBucket_length N dist offs, ?_, lodBucket_join_perm N dist offs hN,
    ?_, ?_, ?_⟩
  · have hp := lodBucket_join_perm N dist offs hN
    have hlen := hp.length_eq
    rw [List.length_join] at hlen
    exact hlen
  · intro o ho
    have hidx : lodIndexNat N (dist o)
        = min (Int.toNat ⌊dist o / 5⌋) (N - 1) :=
      lodIndexNat_eq_min N (dist o) hN (hd o ho)
    have hmem := lodBucket_mem_band N dist offs hN o ho
    have hfin : (⟨lodIndexNat N (dist o), by
          rw [lodBucket_length]; exact lodIndexNat_lt N (dist o) hN⟩ :
        Fin (lodBucket N dist offs).length)
        = ⟨min (Int.toNat ⌊dist o / 5⌋) (N - 1), by
          rw [lodBucket_length]
          exact lt_of_le_of_lt (min_le_right _ _) (by omega)⟩ :=
      Fin.ext hidx
    rw [← hfin]
    exact hmem
  · simp [drawInstanceCounts, lodBucket_length N dist offs]
  · intro k hk
    simp [drawInstanceCounts]

/-- A concrete distance function used to instantiate the C1 theorem. -/
def c1wDist : V3 → ℚ := fun o => o.x

/-- A concrete visible-offset list used to instantiate the C1 theorem. -/
def c1wOffs : List V3 := [⟨0, 0, 0⟩, ⟨7, 0, 0⟩, ⟨100, 0, 0⟩]

/-- Witness for C1 at `N = 3`, a concrete distance function and a concrete
visible list. -/
theorem c1_lod_banding_witness :
    (lodBucket 3 c1wDist c1wOffs).length = 3
    ∧ ((lodBucket 3 c1wDist c1wOffs).map List.length).sum
        = c1wOffs.length :=
  ⟨(c1_lod_banding 3 c1wDist c1wOffs (by decide) (by decide)).1,
   (c1_lod_banding 3 c1wDist c1wOffs (by decide) (by decide)).2.1⟩

/-- C2: in the instanced-rendering program (practice14), for every integer
grid offset `(i, 0, j)` with `-32 <= i < 32` and `-32 <= j < 32`, the
offset is included in the visible set if and only if the mesh's bounding
box translated by that offset passes the frustum-intersection test against
the frustum built from `projection * view`; offsets failing the test are
excluded from every subsequent LOD band (and hence from every instanced
draw, whose instances are exactly the band contents). -/
theorem c2_frustum_culling (test : Aabb → Bool) (mmin mmax : V3)
    (N : ℕ) (dist : V3 → ℚ) (hN : 1 ≤ N) (i j : ℤ)
    (hi0 : -32 ≤ i) (hi1 : i < 32) (hj0 : -32 ≤ j) (hj1 : j < 32) :
    ((⟨(i : ℚ), 0, (j : ℚ)⟩ : V3) ∈ frustumPass test mmin mmax
        ↔ test (aabbAt mmin mmax ⟨(i : ℚ), 0, (j : ℚ)⟩) = true)
    ∧ (test (aabbAt mmin mmax ⟨(i : ℚ), 0, (j : ℚ)⟩) = false →
        ∀ b ∈ lodBucket N dist (frustumPass test mmin mmax),
          (⟨(i : ℚ), 0, (j : ℚ)⟩ : V3) ∉ b) := by
  have hgrid := mem_gridOffsets_of_bounds i j hi0 hi1 hj0 hj1
  have hiff : (⟨(i : ℚ), 0, (j : ℚ)⟩ : V3) ∈ frustumPass test mmin mmax
      ↔ test (aabbAt mmin mmax ⟨(i : ℚ), 0, (j : ℚ)⟩) = true := by
    rw [frustumPass_eq_filter, List.mem_filter]
    constructor
    · exact fun h => h.2
    · exact fun h => ⟨hgrid, h⟩
  refine ⟨hiff, ?_⟩
  intro hfalse b hb hmem
  have hvis := lodBucket_subset N dist (frustumPass test mmin mmax) hN
    b hb _ hmem
  have := hiff.mp hvis
  rw [hfalse] at this
  exact Bool.false_ne_true this

/-- A concrete frustum test used to instantiate the C2 theorem. -/
def c2wTest : Aabb → Bool := fun _ => true

/-- Witness for C2 at a concrete test, bounding box and offset. -/
theorem c2_frustum_culling_witness :
    (⟨(0 : ℚ), 0, (0 : ℚ)⟩ : V3) ∈ frustumPass c2wTest ⟨0, 0, 0⟩ ⟨1, 1, 1⟩ :=
  (c2_frustum_culling c2wTest ⟨0, 0, 0⟩ ⟨1, 1, 1⟩ 1 (fun _ => 0) (by decide)
    0 0 (by decide) (by decide) (by decide) (by decide)).1.mpr rfl

/-- C5: the frustum-culling and LOD-bucketing pass is deterministic: two
executions with the same inputs (same frustum test derived from the same
`projection * view`, same distance function from the same camera position,
same number of LOD meshes, same mesh bounding box) produce the same
visible-offset list and the same per-band offset lists; the pass is a
total function whose only branching is the frustum test, its first
component being exactly the frustum-filtered offsets and its second the
bucketed bands. -/
theorem c5_pass_deterministic (t1 t2 : Aabb → Bool) (d1 d2 : V3 → ℚ)
    (N1 N2 : ℕ) (a1 a2 b1 b2 : V3) (ht : t1 = t2) (hdist : d1 = d2)
    (hN : N1 = N2) (ha : a1 = a2) (hb : b1 = b2) :
    cullAndBucket t1 d1 N1 a1 b1 = cullAndBucket t2 d2 N2 a2 b2
    ∧ (cullAndBucket t1 d1 N1 a1 b1).1 = frustumPass t1 a1 b1
    ∧ (cullAndBucket t1 d1 N1 a1 b1).2
        = lodBucket N1 d1 (frustumPass t1 a1 b1) := by
  subst ht hdist hN ha hb
  exact ⟨rfl, rfl, rfl⟩

/-- Witness for C5 at concrete inputs. -/
theorem c5_pass_deterministic_witness :
    cullAndBucket c2wTest c1wDist 1 ⟨0, 0, 0⟩ ⟨1, 1, 1⟩
      = cullAndBucket c2wTest c1wDist 1 ⟨0, 0, 0⟩ ⟨1, 1, 1⟩ :=
  (c5_pass_deterministic c2wTest c2wTest c1wDist c1wDist 1 1
    ⟨0, 0, 0⟩ ⟨0, 0, 0⟩ ⟨1, 1, 1⟩ ⟨1, 1, 1⟩ rfl rfl rfl rfl rfl).1

/-! ### The Bezier-curve program (`unnamed/part_000`, "practice 3") -/

/-- A vertex of the Bezier-curve program (`unnamed/part_000` lines
119-124): a 2D position, a cumulative distance (the C++ field has default
initializer `0`) and an RGBA color. -/
structure BezVertex where
  pos : ℚ × ℚ
  dist : ℚ
  color : ℕ × ℕ × ℕ × ℕ
deriving DecidableEq, Repr

/-- `sizeof(vertex)` in `unnamed/part_000`: an 8-byte `vec2`, a 4-byte
`float` and four color bytes. -/
def bezVertexBytes : ℕ := 16

/-- `correct_distance` from `unnamed/part_000` lines 126-131: when the
list is nonempty, overwrite the new vertex's distance with the last
vertex's distance plus the distance between their positions, then push the
vertex.  `std::hypot` is C library code, so the plane distance function is
an opaque parameter `hyp`. -/
def correct_distance (hyp : ℚ × ℚ → ℚ × ℚ → ℚ) (vertices : List BezVertex)
    (new_vertex : BezVertex) : List BezVertex :=
  match vertices.getLast? with
  | none => vertices ++ [new_vertex]
  | some back => vertices ++
      [{ new_vertex with dist := back.dist + hyp back.pos new_vertex.pos }]

/-- The cumulative-arc-length shape asserted of a vertex list: the first
vertex has distance 0 and each later vertex's distance is the previous
one's plus the step distance between their positions. -/
def chainFrom (hyp : ℚ × ℚ → ℚ × ℚ → ℚ) (l : List BezVertex) : Prop :=
  (∀ h : 0 < l.length, (l.get ⟨0, h⟩).dist = 0)
  ∧ ∀ i : ℕ, ∀ h : i + 1 < l.length,
      (l.get ⟨i + 1, h⟩).dist
        = (l.get ⟨i, Nat.lt_of_succ_lt h⟩).dist
          + hyp (l.get ⟨i, Nat.lt_of_succ_lt h⟩).pos (l.get ⟨i + 1, h⟩).pos

theorem get_append_sing_left (l : List BezVertex) (x : BezVertex) (k : ℕ)
    (h : k < l.length) :
    (l ++ [x]).get ⟨k, by rw [List.length_append]; omega⟩
      = l.get ⟨k, h⟩ := by
  induction l generalizing k with
  | nil => simp at h
  | cons a t ih =>
    cases k with
    | zero => rfl
    | succ n =>
      have hn : n < t.length := by simpa using h
      simpa [List.get] using ih n hn

theorem get_append_sing_last (l : List BezVertex) (x : BezVertex) :
    (l ++ [x]).get ⟨l.length, by simp⟩ = x := by
  induction l with
  | nil => rfl
  | cons a t ih => simpa [List.get] using ih

theorem getLast?_eq_some_get (l : List BezVertex) (b : BezVertex)
    (h : l.getLast? = some b) :
    ∃ hpos : 0 < l.length, l.get ⟨l.length - 1, by omega⟩ = b := by
  induction l with
  | nil => simp at h
  | cons a t ih =>
    cases t with
    | nil =>
      refine ⟨by simp, ?_⟩
      simp only [List.getLast?_singleton, Option.some.injEq] at h
      simpa [List.get] using h
    | cons c r =>
      have h2 : (c :: r).getLast? = some b := by
        simpa [List.getLast?_cons_cons] using h
      obtain ⟨hp, hg⟩ := ih h2
      refine ⟨by simp, ?_⟩
      have hlen : (a :: c :: r).length - 1 = ((c :: r).length - 1) + 1 := by
        simp only [List.length_cons]
        omega
      have hbase : (a :: c :: r).get ⟨((c :: r).length - 1) + 1, by
          simp only [List.length_cons]; omega⟩
          = (c :: r).get ⟨(c :: r).length - 1, by omega⟩ := rfl
      rw [← hg]
      exact (Fin.ext hlen : (⟨(a :: c :: r).length - 1, by omega⟩ :
        Fin (a :: c :: r).length) = ⟨((c :: r).length - 1) + 1, by
          simp only [List.length_cons]; omega⟩) ▸ hbase

theorem correct_distance_length (hyp : ℚ × ℚ → ℚ × ℚ → ℚ)
    (l : List BezVertex) (v : BezVertex) :
    (correct_distance hyp l v).length = l.length + 1 := by
  unfold correct_distance
  cases l.getLast? <;> simp

theorem chainFrom_nil (hyp : ℚ × ℚ → ℚ × ℚ → ℚ) : chainFrom hyp [] := by
  constructor
  · intro h; simp at h
  · intro i h; simp at h

theorem chainFrom_correct_distance (hyp : ℚ × ℚ → ℚ × ℚ → ℚ)
    (l : List BezVertex) (v : BezVertex) (hc : chainFrom hyp l)
    (hv : v.dist = 0) : chainFrom hyp (correct_distance hyp l v) := by
  unfold correct_distance
  cases hl : l.getLast? with
  | none =>
    have hnil : l = [] := by
      cases l with
      | nil => rfl
      | cons a t => exact absurd hl (by simp [List.getLast?_eq_getLast])
    subst hnil
    constructor
    · intro h
      simpa [List.get] using hv
    · intro i h
      simp at h
  | some back =>
    obtain ⟨hlp, hback⟩ := getLast?_eq_some_get l back hl
    set w : BezVertex :=
      { v with dist := back.dist + hyp back.pos v.pos } with hw
    constructor
    · intro h
      have h0 : 0 < l.length := hlp
      have := get_append_sing_left l w 0 h0
      rw [this]
      exact hc.1 h0
    · intro i h
      have hlen2 : i + 1 < l.length + 1 := by simpa using h
      rcases Nat.lt_or_ge (i + 1) l.length with hlt | hge
      · have hgi : i < l.length := Nat.lt_of_succ_lt hlt
        rw [get_append_sing_left l w (i + 1) hlt,
          get_append_sing_left l w i hgi]
        exact hc.2 i hlt
      · have hieq : i + 1 = l.length := by omega
        have hgi : i < l.length := by omega
        have hfin1 : (⟨i + 1, by rw [List.length_append]; simp; omega⟩ :
            Fin (l ++ [w]).length) = ⟨l.length, by simp⟩ := Fin.ext hieq
        have hlast := get_append_sing_last l w
        have hil : i = l.length - 1 := by omega
        have hfin2 : (⟨i, by rw [List.length_append]; simp; omega⟩ :
            Fin (l ++ [w]).length)
            = ⟨l.length - 1, by rw [List.length_append]; simp; omega⟩ :=
          Fin.ext hil
        have hgl : (l ++ [w]).get ⟨l.length - 1, by
            rw [List.length_append]; simp; omega⟩
            = l.get ⟨l.length - 1, by omega⟩ :=
          get_append_sing_left l w (l.length - 1) (by omega)
        have hget1 : (l ++ [w]).get ⟨i + 1, h⟩ = w := by
          rw [show (⟨i + 1, h⟩ : Fin (l ++ [w]).length)
            = ⟨l.length, by simp⟩ from Fin.ext hieq]
          exact hlast
        have hget2 : (l ++ [w]).get ⟨i, Nat.lt_of_succ_lt h⟩ = back := by
          rw [show (⟨i, Nat.lt_of_succ_lt h⟩ : Fin (l ++ [w]).length)
            = ⟨l.length - 1, by rw [List.length_append]; simp; omega⟩
            from Fin.ext hil]
          rw [hgl, hback]
        rw [hget1, hget2]

theorem chainFrom_monotone (hyp : ℚ × ℚ → ℚ × ℚ → ℚ)
    (hpos : ∀ a b, 0 ≤ hyp a b) (l : List BezVertex)
    (hc : chainFrom hyp l) (i j : ℕ) (hij : i ≤ j) (hj : j < l.length) :
    (l.get ⟨i, lt_of_le_of_lt hij hj⟩).dist ≤ (l.get ⟨j, hj⟩).dist := by
  induction j with
  | zero =>
    have hi0 : i = 0 := Nat.le_zero.mp hij
    subst hi0
    exact le_refl _
  | succ n ih =>
    rcases Nat.lt_or_ge i (n + 1) with hlt | hge
    · have hin : i ≤ n := by omega
      have hn : n < l.length := Nat.lt_of_succ_lt hj
      have h1 := ih hin hn
      have h2 := hc.2 n hj
      have h3 : (l.get ⟨n, hn⟩).dist ≤ (l.get ⟨n + 1, hj⟩).dist := by
        rw [h2]
        have := hpos (l.get ⟨n, Nat.lt_of_succ_lt hj⟩).pos
          (l.get ⟨n + 1, hj⟩).pos
        linarith
      exact le_trans h1 h3
    · have hieq : i = n + 1 := by omega
      subst hieq
      exact le_refl _

theorem chainFrom_foldl (hyp : ℚ × ℚ → ℚ × ℚ → ℚ) (ins : List BezVertex)
    (hz : ∀ v ∈ ins, v.dist = 0) (acc : List BezVertex)
    (hacc : chainFrom hyp acc) :
    chainFrom hyp (ins.foldl (correct_distance hyp) acc) := by
  induction ins generalizing acc with
  | nil => exact hacc
  | cons a t ih =>
    rw [List.foldl_cons]
    exact ih (fun v hv => hz v (List.mem_cons_of_mem a hv))
      (correct_distance hyp acc a)
      (chainFrom_correct_distance hyp acc a hacc
        (hz a (List.mem_cons_self a t)))

theorem foldl_correct_distance_length (hyp : ℚ × ℚ → ℚ × ℚ → ℚ)
    (ins : List BezVertex) (acc : List BezVertex) :
    (ins.foldl (correct_distance hyp) acc).length
      = acc.length + ins.length := by
  induction ins generalizing acc with
  | nil => simp
  | cons a t ih =>
    rw [List.foldl_cons, ih, correct_distance_length]
    simp only [List.length_cons]
    omega

/-- C8: in the Bezier-curve program, every vertex list built exclusively
by successive calls to `correct_distance` starting from the empty list
(all inserted vertices carrying the default distance 0, as at both call
sites) satisfies: the first vertex has distance 0, every later vertex's
distance is the previous vertex's distance plus the step distance between
their positions, and the distance field is non-decreasing along the list.
`std::hypot` is an opaque nonnegative parameter. -/
theorem c8_correct_distance_arc_length (hyp : ℚ × ℚ → ℚ × ℚ → ℚ)
    (hpos : ∀ a b, 0 ≤ hyp a b) (ins : List BezVertex)
    (hz : ∀ v ∈ ins, v.dist = 0) :
    (ins.foldl (correct_distance hyp) []).length = ins.length
    ∧ chainFrom hyp (ins.foldl (correct_distance hyp) [])
    ∧ ∀ i j : ℕ, ∀ hij : i ≤ j,
        ∀ hj : j < (ins.foldl (correct_distance hyp) []).length,
        ((ins.foldl (correct_distance hyp) []).get
            ⟨i, lt_of_le_of_lt hij hj⟩).dist
          ≤ ((ins.foldl (correct_distance hyp) []).get ⟨j, hj⟩).dist := by
  have hchain := chainFrom_foldl hyp ins hz [] (chainFrom_nil hyp)
  refine ⟨by simpa using foldl_correct_distance_length hyp ins [], hchain, ?_⟩
  intro i j hij hj
  exact chainFrom_monotone hyp hpos _ hchain i j hij hj

/-- A concrete plane distance function (taxicab) used to instantiate the
C8 theorem; it is nonnegative, as `std::hypot` is. -/
def c8wHyp : ℚ × ℚ → ℚ × ℚ → ℚ := fun a b => |a.1 - b.1| + |a.2 - b.2|

/-- A concrete insertion list used to instantiate the C8 theorem. -/
def c8wIns : List BezVertex :=
  [⟨(0, 0), 0, (255, 0, 0, 255)⟩, ⟨(3, 4), 0, (0, 255, 0, 255)⟩,
   ⟨(3, 0), 0, (0, 0, 255, 255)⟩]

/-- Witness for C8 at a concrete distance function and insertion list. -/
theorem c8_correct_distance_arc_length_witness :
    (c8wIns.foldl (correct_distance c8wHyp) []).length = c8wIns.length :=
  (c8_correct_distance_arc_length c8wHyp
    (fun a b => add_nonneg (abs_nonneg _) (abs_nonneg _))
    c8wIns (by decide)).1

/-- One De Casteljau round of the in-place loop in `bezier`
(`unnamed/part_000` lines 141-148): each point is replaced by the affine
interpolation of itself and its right neighbour; the functional version
drops the stale trailing entry the C++ code keeps but never reads. -/
def lerpRound (t : ℚ) : List (ℚ × ℚ) → List (ℚ × ℚ)
  | a :: b :: rest =>
      (a.1 * (1 - t) + b.1 * t, a.2 * (1 - t) + b.2 * t)
        :: lerpRound t (b :: rest)
  | _ => []

/-- `bezier` from `unnamed/part_000` lines 133-150: De Casteljau's
algorithm on the control positions, evaluated at parameter `t`. -/
def bezier (vertices : List BezVertex) (t : ℚ) : ℚ × ℚ :=
  (((lerpRound t)^[vertices.length - 1])
    (vertices.map BezVertex.pos)).headD (0, 0)

/-- The color cycle of `generate_bezier` (`unnamed/part_000` line 154). -/
def bezColors (i : ℕ) : ℕ × ℕ × ℕ × ℕ :=
  if i % 3 = 0 then (255, 255, 0, 255)
  else if i % 3 = 1 then (0, 255, 255, 255)
  else (255, 0, 255, 255)

/-- `generate_bezier` from `unnamed/part_000` lines 152-166: sample the
Bezier curve at `count + 1` parameters (`count = (size - 1) * quality`),
chaining distances through `correct_distance`.  The float accumulator
`dt += 1.f / count` is exact in `ℚ`, equal to `i / count` at step `i`. -/
def generate_bezier (hyp : ℚ × ℚ → ℚ × ℚ → ℚ) (vertices : List BezVertex)
    (quality : ℤ) : List BezVertex :=
  let count : ℤ := ((vertices.length : ℤ) - 1) * quality
  (List.range ((count + 1).toNat)).foldl (fun ret (i : ℕ) =>
    correct_distance hyp ret
      { pos := bezier vertices ((i : ℚ) / (count : ℚ)), dist := 0,
        color := bezColors i }) []

/-- The colors cycled through on left mouse clicks (`unnamed/part_000`
line 276), indexed by the click counter modulo 3. -/
def clickColors (c : ℤ) : ℕ × ℕ × ℕ × ℕ :=
  if c % 3 = 0 then (255, 0, 0, 255)
  else if c % 3 = 1 then (0, 255, 0, 255)
  else (0, 0, 255, 255)

/-- The events of the `unnamed/part_000` render loop that touch its
state: left/right mouse clicks, LEFT/RIGHT key presses, and any other key
press (which still sets the redraw flag). -/
inductive BezEvent
  | leftClick (x y : ℚ)
  | rightClick
  | keyLeft
  | keyRight
  | keyOther
deriving DecidableEq, Repr

/-- The mutable state of the `unnamed/part_000` render loop: the control
vertex list, the generated curve, the sampling quality, the click-color
counter, the redraw flag, plus two observation logs — every
`glBufferData` vertex upload (byte-size argument and the list uploaded)
and every `quality` value passed to `generate_bezier`. -/
structure BezState where
  vertices : List BezVertex
  vertices_bez : List BezVertex
  quality : ℤ
  color : ℤ
  need_redraw : Bool
  uploads : List (ℕ × List BezVertex)
  gen_quality_calls : List ℤ
deriving Repr

/-- The loop state at entry (`unnamed/part_000` lines 219, 233, 234, 249,
252): empty lists, `quality = 4`, `color = 0`, no redraw pending. -/
def initBezState : BezState :=
  { vertices := [], vertices_bez := [], quality := 4, color := 0,
    need_redraw := false, uploads := [], gen_quality_calls := [] }

/-- Event handling from `unnamed/part_000` lines 269-298: a left click
increments the color counter and appends a vertex through
`correct_distance`; a right click pops the last vertex (when any) and
decrements the counter; LEFT clamps the quality at 1, RIGHT increments
it; every one of these events sets the redraw flag. -/
def processEvent (hyp : ℚ × ℚ → ℚ × ℚ → ℚ) (st : BezState) :
    BezEvent → BezState
  | .leftClick x y =>
      { st with
        color := st.color + 1,
        vertices := correct_distance hyp st.vertices
          { pos := (x, y), dist := 0, color := clickColors (st.color + 1) },
        need_redraw := true }
  | .rightClick =>
      if st.vertices.isEmpty then { st with need_redraw := true }
      else
        { st with
          vertices := st.vertices.dropLast,
          color := st.color - 1,
          need_redraw := true }
  | .keyLeft =>
      { st with
        quality := if st.quality = 1 then 1 else st.quality - 1,
        need_redraw := true }
  | .keyRight => { st with quality := st.quality + 1, need_redraw := true }
  | .keyOther => { st with need_redraw := true }

/-- The redraw block of `unnamed/part_000` lines 322-333: when the flag is
set, upload the control vertices (`vertices.size() * sizeof(vertex)`
bytes); when more than two control vertices exist, regenerate the Bezier
samples with the current quality and upload them too; then clear the
flag. -/
def frameRedraw (hyp : ℚ × ℚ → ℚ × ℚ → ℚ) (st : BezState) : BezState :=
  if st.need_redraw then
    let st1 := { st with uploads := st.uploads
      ++ [(st.vertices.length * bezVertexBytes, st.vertices)] }
    let st2 :=
      if 2 < st1.vertices.length then
        let vb := generate_bezier hyp st1.vertices st1.quality
        { st1 with
          vertices_bez := vb,
          gen_quality_calls := st1.gen_quality_calls ++ [st1.quality],
          uploads := st1.uploads ++ [(vb.length * bezVertexBytes, vb)] }
      else st1
    { st2 with need_redraw := false }
  else st

/-- One iteration of the `unnamed/part_000` render loop: poll and process
the pending events, then run the redraw block. -/
def bezFrame (hyp : ℚ × ℚ → ℚ × ℚ → ℚ) (st : BezState)
    (evs : List BezEvent) : BezState :=
  frameRedraw hyp (evs.foldl (processEvent hyp) st)

/-- The `unnamed/part_000` render loop run over a sequence of frames, each
frame carrying its polled events. -/
def runBez (hyp : ℚ × ℚ → ℚ × ℚ → ℚ)
    (frames : List (List BezEvent)) : BezState :=
  frames.foldl (bezFrame hyp) initBezState

/-- The state invariant backing C9 and C6: the quality is at least 1,
every logged `generate_bezier` call got quality at least 1, and every
logged vertex upload passed exactly `count * sizeof(vertex)` bytes for the
list it uploaded. -/
def bezInvariant (st : BezState) : Prop :=
  1 ≤ st.quality
  ∧ (∀ q ∈ st.gen_quality_calls, 1 ≤ q)
  ∧ (∀ u ∈ st.uploads, u.1 = u.2.length * bezVertexBytes)

theorem bezInvariant_init : bezInvariant initBezState := by
  refine ⟨by norm_num [initBezState], ?_, ?_⟩
  · intro q hq; simp [initBezState] at hq
  · intro u hu; simp [initBezState] at hu

theorem bezInvariant_processEvent (hyp : ℚ × ℚ → ℚ × ℚ → ℚ)
    (st : BezState) (e : BezEvent) (h : bezInvariant st) :
    bezInvariant (processEvent hyp st e) := by
  obtain ⟨hq, hg, hu⟩ := h
  cases e with
  | leftClick x y =>
    simp only [processEvent]
    exact ⟨hq, hg, hu⟩
  | rightClick =>
    simp only [processEvent]
    by_cases he : st.vertices.isEmpty
    · rw [if_pos he]
      exact ⟨hq, hg, hu⟩
    · rw [if_neg he]
      exact ⟨hq, hg, hu⟩
  | keyLeft =>
    simp only [processEvent]
    refine ⟨?_, hg, hu⟩
    show 1 ≤ (if st.quality = 1 then 1 else st.quality - 1)
    by_cases h1 : st.quality = 1
    · rw [if_pos h1]
    · rw [if_neg h1]
      omega
  | keyRight =>
    simp only [processEvent]
    refine ⟨?_, hg, hu⟩
    show 1 ≤ st.quality + 1
    omega
  | keyOther =>
    simp only [processEvent]
    exact ⟨hq, hg, hu⟩

theorem bezInvariant_frameRedraw (hyp : ℚ × ℚ → ℚ × ℚ → ℚ)
    (st : BezState) (h : bezInvariant st) :
    bezInvariant (frameRedraw hyp st) := by
  obtain ⟨hq, hg, hu⟩ := h
  unfold frameRedraw
  by_cases hr : st.need_redraw
  · simp only [hr, if_pos]
    by_cases hv : 2 < st.vertices.length
    · simp only [hv, if_pos]
      refine ⟨hq, ?_, ?_⟩
      · intro q hqm
        rcases List.mem_append.mp hqm with hin | hnew
        · exact hg q hin
        · rw [List.mem_singleton] at hnew
          subst hnew
          exact hq
      · intro u hum
        rcases List.mem_append.mp hum with hin | hnew
        · rcases List.mem_append.mp hin with hin2 | hctl
          · exact hu u hin2
          · rw [List.mem_singleton] at hctl
            subst hctl
            rfl
        · rw [List.mem_singleton] at hnew
          subst hnew
          rfl
    · simp only [hv, if_neg, not_false_iff]
      refine ⟨hq, hg, ?_⟩
      intro u hum
      rcases List.mem_append.mp hum with hin | hnew
      · exact hu u hin
      · rw [List.mem_singleton] at hnew
        subst hnew
        rfl
  · simp only [hr]
    exact ⟨hq, hg, hu⟩

theorem bezInvariant_run (hyp : ℚ × ℚ → ℚ × ℚ → ℚ)
    (frames : List (List BezEvent)) : bezInvariant (runBez hyp frames) := by
  unfold runBez
  have key : ∀ (fs : List (List BezEvent)) (st : BezState),
      bezInvariant st → bezInvariant (fs.foldl (bezFrame hyp) st) := by
    intro fs
    induction fs with
    | nil => intro st h; exact h
    | cons f t ih =>
      intro st h
      rw [List.foldl_cons]
      refine ih _ ?_
      unfold bezFrame
      refine bezInvariant_frameRedraw hyp _ ?_
      have hevs : ∀ (evs : List BezEvent) (s : BezState), bezInvariant s →
          bezInvariant (evs.foldl (processEvent hyp) s) := by
        intro evs
        induction evs with
        | nil => intro s hs; exact hs
        | cons e r ihe =>
          intro s hs
          rw [List.foldl_cons]
          exact ihe _ (bezInvariant_processEvent hyp s e hs)
      exact hevs f st h
  exact key frames initBezState bezInvariant_init

/-- C9: in the Bezier-curve program, the curve-sampling quality starts at
4, a RIGHT key press increments it, a LEFT key press decrements it only
when it is greater than 1, and after any sequence of frames and events the
quality is at least 1; in particular every logged `generate_bezier` call
received a quality of at least 1. -/
theorem c9_quality_at_least_one (hyp : ℚ × ℚ → ℚ × ℚ → ℚ)
    (frames : List (List BezEvent)) :
    initBezState.quality = 4
    ∧ (∀ st : BezState, (processEvent hyp st .keyRight).quality
        = st.quality + 1)
    ∧ (∀ st : BezState, (processEvent hyp st .keyLeft).quality
        = if st.quality = 1 then 1 else st.quality - 1)
    ∧ 1 ≤ (runBez hyp frames).quality
    ∧ (∀ q ∈ (runBez hyp frames).gen_quality_calls, 1 ≤ q) := by
  have h := bezInvariant_run hyp frames
  exact ⟨rfl, fun _ => rfl, fun _ => rfl, h.1, h.2.1⟩

/-! ### Vertex uploads of the remaining programs (C6) -/

/-- A vertex of the MSDF text program (`practice15/main.cpp` lines
103-106): two `glm::vec2` fields. -/
structure MsdfVertex where
  position : ℚ × ℚ
  texcoord : ℚ × ℚ
deriving DecidableEq, Repr

/-- `sizeof(vertex)` in `practice15/main.cpp`: two 8-byte `glm::vec2`. -/
def msdfVertexBytes : ℕ := 16

/-- The text-editing events of the `practice15` render loop (lines
258-272): RETURN appends a newline, BACKSPACE pops the last character
when the text is nonempty, and SDL_TEXTINPUT appends the typed
characters; each sets the text-changed flag. -/
inductive MsdfEvent
  | keyReturn
  | keyBackspace
  | textInput (s : List Char)
deriving DecidableEq, Repr

/-- The mutable state of the `practice15` render loop: the text, the
text-changed flag, and a log of every `glBufferData` vertex upload
(byte-size argument and the list uploaded). -/
structure MsdfState where
  text : List Char
  text_changed : Bool
  uploads : List (ℕ × List MsdfVertex)
deriving Repr

/-- The loop state at entry (`practice15/main.cpp` lines 239-240):
`text = "Helloo"`, `text_changed = true`, nothing uploaded yet. -/
def initMsdfState : MsdfState :=
  { text := "Helloo".toList, text_changed := true, uploads := [] }

/-- Event handling from `practice15/main.cpp` lines 258-272. -/
def processMsdfEvent (st : MsdfState) : MsdfEvent → MsdfState
  | .keyReturn =>
      { st with
        text := st.text ++ [Char.ofNat 10],
        text_changed := true }
  | .keyBackspace =>
      if st.text.isEmpty then st
      else
        { st with
          text := st.text.dropLast,
          text_changed := true }
  | .textInput s =>
      { st with
        text := st.text ++ s,
        text_changed := true }

/-- The line-break insertion loop of `practice15/main.cpp` lines 291-303
(`line_width = 13`): walk the text with a running counter that resets on
a newline; when the counter reaches 13, insert a newline before the
current character, which is then recounted as the first of the new
line. -/
def insertBreaksAux : ℕ → List Char → List Char
  | _, [] => []
  | counter, c :: rest =>
      if c = Char.ofNat 10 then c :: insertBreaksAux 0 rest
      else if counter + 1 = 13 then
        Char.ofNat 10 :: c :: insertBreaksAux 1 rest
      else c :: insertBreaksAux (counter + 1) rest

/-- `insertBreaksAux` started with counter 0, as in the source loop. -/
def insertBreaks (text : List Char) : List Char := insertBreaksAux 0 text

/-- The vertex list `std::vector<vertex>{6 * text.size()}` built at
`practice15/main.cpp` lines 304-336: six vertices per character, each
filled in place from the glyph data; the per-index glyph computation
involves the loaded font and float arithmetic, so it is an opaque
parameter `mkv` (the in-place writes never change the length). -/
def buildTextVertices (mkv : ℕ → MsdfVertex) (text : List Char) :
    List MsdfVertex :=
  (List.range (6 * text.length)).map mkv

/-- One iteration of the `practice15` render loop: process the polled
events; when the text changed, insert line breaks, rebuild the vertex
list and upload it with `vertices.size() * sizeof(vertex)` bytes (lines
290-338), then clear the flag; finally, when the fade timer expired,
clear the text (line 371 `if (time > fadeTime) text.clear()` — whether
it expired depends on wall-clock time, so it is a per-frame Boolean
input). -/
def msdfFrame (mkv : ℕ → MsdfVertex) (st : MsdfState)
    (evs : List MsdfEvent) (fadeExpired : Bool) : MsdfState :=
  let st1 := evs.foldl processMsdfEvent st
  let st2 :=
    if st1.text_changed then
      let text2 := insertBreaks st1.text
      let verts := buildTextVertices mkv text2
      { st1 with
        text := text2,
        text_changed := false,
        uploads := st1.uploads
          ++ [(verts.length * msdfVertexBytes, verts)] }
    else st1
  if fadeExpired then { st2 with text := [] } else st2

/-- The `practice15` render loop run over a sequence of frames, each with
its polled events and fade-expiry flag. -/
def runMsdf (mkv : ℕ → MsdfVertex)
    (frames : List (List MsdfEvent × Bool)) : MsdfState :=
  frames.foldl (fun st fr => msdfFrame mkv st fr.1 fr.2) initMsdfState

/-- Every upload logged by the `practice15` loop passed exactly
list-length times `sizeof(vertex)` bytes. -/
def msdfUploadsOk (st : MsdfState) : Prop :=
  ∀ u ∈ st.uploads, u.1 = u.2.length * msdfVertexBytes

theorem msdfUploadsOk_init : msdfUploadsOk initMsdfState := by
  intro u hu
  simp [initMsdfState] at hu

theorem msdfUploadsOk_processEvent (st : MsdfState) (e : MsdfEvent)
    (h : msdfUploadsOk st) : msdfUploadsOk (processMsdfEvent st e) := by
  cases e with
  | keyReturn => exact h
  | keyBackspace =>
    simp only [processMsdfEvent]
    by_cases he : st.text.isEmpty
    · rw [if_pos he]
      exact h
    · rw [if_neg he]
      exact h
  | textInput s => exact h

theorem msdfUploadsOk_frame (mkv : ℕ → MsdfVertex) (st : MsdfState)
    (evs : List MsdfEvent) (fadeExpired : Bool) (h : msdfUploadsOk st) :
    msdfUploadsOk (msdfFrame mkv st evs fadeExpired) := by
  have h1 : msdfUploadsOk (evs.foldl processMsdfEvent st) := by
    induction evs generalizing st with
    | nil => exact h
    | cons e t ih =>
      rw [List.foldl_cons]
      exact ih (processMsdfEvent st e) (msdfUploadsOk_processEvent st e h)
  unfold msdfFrame
  set st1 := evs.foldl processMsdfEvent st with hst1
  by_cases hc : st1.text_changed
  · simp only [hc, if_pos]
    by_cases hf : fadeExpired
    · simp only [hf, if_pos]
      intro u hu
      rcases List.mem_append.mp hu with hin | hnew
      · exact h1 u hin
      · rw [List.mem_singleton] at hnew
        subst hnew
        rfl
    · simp only [hf, if_neg, not_false_iff]
      intro u hu
      rcases List.mem_append.mp hu with hin | hnew
      · exact h1 u hin
      · rw [List.mem_singleton] at hnew
        subst hnew
        rfl
  · simp only [hc]
    by_cases hf : fadeExpired
    · simp only [hf, if_pos]
      exact h1
    · simp only [hf, if_neg, not_false_iff]
      exact h1

theorem msdfUploadsOk_run (mkv : ℕ → MsdfVertex)
    (frames : List (List MsdfEvent × Bool)) :
    msdfUploadsOk (runMsdf mkv frames) := by
  unfold runMsdf
  have key : ∀ (fs : List (List MsdfEvent × Bool)) (st : MsdfState),
      msdfUploadsOk st →
      msdfUploadsOk (fs.foldl (fun st fr => msdfFrame mkv st fr.1 fr.2)
        st) := by
    intro fs
    induction fs with
    | nil => intro st h; exact h
    | cons f t ih =>
      intro st h
      rw [List.foldl_cons]
      exact ih _ (msdfUploadsOk_frame mkv st f.1 f.2 h)
  exact key frames initMsdfState msdfUploadsOk_init

/-- `sizeof(lod_offsets[lod][0])` in `practice14/main.cpp` line 432: a
12-byte `glm::vec3`. -/
def vec3Bytes : ℕ := 12

/-- The per-frame, per-band vertex uploads of `practice14/main.cpp` lines
428-434: for each LOD band, `glBufferData` is passed
`lod_offsets[lod].size() * sizeof(lod_offsets[lod][0])` bytes and the
band's data. -/
def lodOffsetUploads (test : Aabb → Bool) (dist : V3 → ℚ) (N : ℕ)
    (mmin mmax : V3) : List (ℕ × List V3) :=
  (lodBucket N dist (frustumPass test mmin mmax)).map
    (fun band => (band.length * vec3Bytes, band))

/-- A vertex of the metaball program (`unnamed/part_003` lines 112-116):
a `glm::vec3` position and four color bytes. -/
structure MetaVertex where
  pos : ℚ × ℚ × ℚ
  color : ℕ × ℕ × ℕ × ℕ
deriving DecidableEq, Repr

/-- `sizeof(vertex)` in the metaball program `unnamed/part_003` (first
program): a 12-byte `glm::vec3` plus four color bytes. -/
def metaVertexBytes : ℕ := 16

/-- `dimension` in `unnamed/part_003` (first program), line 164. -/
def metaDimension : ℕ := 100

/-- `range` in `unnamed/part_003` (first program), line 163. -/
def metaRange : ℚ := 4

/-- The vertex written at grid cell `(i, j)` by the startup grid loop of
`unnamed/part_003` lines 293-300. -/
def metaballGridVertex (i j : ℕ) : MetaVertex :=
  let x : ℚ := 2 * metaRange * i / ((metaDimension : ℚ) - 1) - metaRange
  let y : ℚ := 2 * metaRange * j / ((metaDimension : ℚ) - 1) - metaRange
  ⟨(x / metaRange, -y / metaRange, 0), (0, 0, 0, 255)⟩

/-- The metaball vertex list after `vertices.resize(dimension *
dimension)` and the startup grid loop (`unnamed/part_003` lines 292-300),
for grid side `d`; the per-frame `update_vertices` only assigns elements
in place and never changes the length. -/
def metaballVerticesAt (d : ℕ) : List MetaVertex :=
  (List.range d).flatMap (fun i =>
    (List.range d).map (fun j => metaballGridVertex i j))

/-- The metaball vertex list at the program's `dimension = 100`. -/
def metaballInitVertices : List MetaVertex :=
  metaballVerticesAt metaDimension

/-- The vertex-buffer allocation at `unnamed/part_003` lines 318-319:
`vertices.size() * sizeof(vertex)` bytes for the metaball vertex list of
grid side `d`. -/
def metaballAllocationAt (d : ℕ) : ℕ × List MetaVertex :=
  ((metaballVerticesAt d).length * metaVertexBytes, metaballVerticesAt d)

/-- The allocation at the program's `dimension = 100`. -/
def metaballAllocation : ℕ × List MetaVertex :=
  metaballAllocationAt metaDimension

/-- The four corner vertices pushed for grid cell `(i, j)` by the grid
construction loops of `unnamed/part_003` lines 627-641 and
`homework1/main.cpp` lines 326-333. -/
def gridCellVertices (i j : ℕ) : List (ℚ × ℚ) :=
  [((i : ℚ), (j : ℚ)), ((i : ℚ) + 1, (j : ℚ)),
   ((i : ℚ) + 1, (j : ℚ) + 1), ((i : ℚ), (j : ℚ) + 1)]

/-- The vertex list built by the `dimension × dimension` grid loops of
`unnamed/part_003` (second program) and `homework1/main.cpp`: four
vertices per cell, outer loop over `j`, inner over `i`. -/
def gridVertices (dimension : ℕ) : List (ℚ × ℚ) :=
  (List.range dimension).flatMap (fun j =>
    (List.range dimension).flatMap (fun i => gridCellVertices i j))

/-- `sizeof(vertex)` in the grid program of `unnamed/part_003`
(`std::array<float, 2> position`) and `sizeof(Vertex)` in
`homework1/main.cpp` (`std::array<float, 2> position`): 8 bytes. -/
def gridVertexBytes : ℕ := 8

/-- The grid vertex upload with `vertices.size() * sizeof(vertex)` bytes
for the grid list of side `d` (the common shape of the two grid
programs). -/
def gridUploadAt (d : ℕ) : ℕ × List (ℚ × ℚ) :=
  ((gridVertices d).length * gridVertexBytes, gridVertices d)

/-- The vertex upload of the grid program at `unnamed/part_003` lines
650-651: `vertices.size() * sizeof(vertex)` bytes for the
`dimension = 1024` grid list. -/
def gridUploadPart003 : ℕ × List (ℚ × ℚ) := gridUploadAt 1024

/-- The vertex upload of `homework1/main.cpp` lines 348-349:
`vertices.size() * sizeof(Vertex)` bytes for the `dimension = 1024` grid
list. -/
def gridUploadHomework1 : ℕ × List (ℚ × ℚ) := gridUploadAt 1024

/-- A full `obj_data::vertex`: position, normal and texcoord, as laid out
by the attribute setup of `unnamed/part_001` lines 731-739 (offsets 0,
12, 24). -/
structure ObjFullVertex where
  position : ℚ × ℚ × ℚ
  normal : ℚ × ℚ × ℚ
  texcoord : ℚ × ℚ
deriving DecidableEq, Repr

/-- `sizeof(obj_data::vertex)`: three + three + two floats, 32 bytes. -/
def objVertexBytes : ℕ := 32

/-- The vertex upload of `practice4/main.cpp` lines 194-196:
`bunny.vertices.size() * sizeof(obj_data::vertex)` bytes for the loaded
bunny vertex list (the list itself comes from `parse_obj`, so it is a
parameter). -/
def practice4Upload (bunny : List ObjFullVertex) :
    ℕ × List ObjFullVertex :=
  (bunny.length * objVertexBytes, bunny)

/-- The vertex upload of the cow program at `practice5/main.cpp` lines
225-226: `cow.vertices.size() * sizeof(obj_data::vertex)` bytes for the
loaded cow vertex list. -/
def practice5CowUpload (cow : List ObjFullVertex) :
    ℕ × List ObjFullVertex :=
  (cow.length * objVertexBytes, cow)

/-- The scene vertex upload of the Sponza program at `unnamed/part_001`
lines 727-729: `scene.vertices.size() * sizeof(obj_data::vertex)` bytes
for the vertex list produced by `load_scene`. -/
def sponzaSceneUpload (scene : List ObjFullVertex) :
    ℕ × List ObjFullVertex :=
  (scene.length * objVertexBytes, scene)

theorem length_flatMap_const {α β : Type} (l : List α) (f : α → List β)
    (n : ℕ) (h : ∀ a ∈ l, (f a).length = n) :
    (l.flatMap f).length = l.length * n := by
  induction l with
  | nil => simp
  | cons a t ih =>
    rw [List.flatMap_cons, List.length_append,
      h a (List.mem_cons_self a t),
      ih (fun b hb => h b (List.mem_cons_of_mem a hb))]
    simp only [List.length_cons]
    ring

theorem gridVertices_length (dimension : ℕ) :
    (gridVertices dimension).length = 4 * (dimension * dimension) := by
  unfold gridVertices
  have hcell : ∀ i j : ℕ, (gridCellVertices i j).length = 4 := by
    intro i j
    rfl
  have hinner : ∀ j : ℕ,
      ((List.range dimension).flatMap
        (fun i => gridCellVertices i j)).length = dimension * 4 := by
    intro j
    rw [length_flatMap_const _ _ 4 (fun i _ => hcell i j)]
    rw [List.length_range]
  rw [length_flatMap_const _ _ (dimension * 4) (fun j _ => hinner j)]
  rw [List.length_range]
  ring

theorem metaballVerticesAt_length (d : ℕ) :
    (metaballVerticesAt d).length = d * d := by
  unfold metaballVerticesAt
  have hinner : ∀ i : ℕ,
      ((List.range d).map (fun j => metaballGridVertex i j)).length
        = d := by
    intro i
    rw [List.length_map, List.length_range]
  rw [length_flatMap_const _ _ d (fun i _ => hinner i)]
  rw [List.length_range]

theorem metaballAllocationAt_matches (d : ℕ) :
    (metaballAllocationAt d).1
      = (metaballAllocationAt d).2.length * metaVertexBytes := rfl

theorem gridUploadAt_matches (d : ℕ) :
    (gridUploadAt d).1 = (gridUploadAt d).2.length * gridVertexBytes := rfl

/-- C6: whenever a program uploads its CPU-side vertex list to a GPU
vertex buffer, the byte size passed equals the number of vertices times
`sizeof(vertex)` — in every frame and after every edit of the vertex
list.  Site by site: every upload logged in any reachable state of the
Bezier loop; every upload logged in any reachable state of the MSDF text
loop (whose rebuilt list has six vertices per character); every per-band
offset upload of any practice14 frame; the metaball allocation for the
actual 100×100 grid list; the 1024×1024 grid uploads of the
`unnamed/part_003` grid program and of homework1; and the loaded-list
uploads of practice4, the practice5 cow program and the Sponza scene,
for every possible loaded vertex list. -/
theorem c6_upload_size_matches (hyp : ℚ × ℚ → ℚ × ℚ → ℚ)
    (mkv : ℕ → MsdfVertex) (frames : List (List BezEvent))
    (mframes : List (List MsdfEvent × Bool)) :
    (∀ u ∈ (runBez hyp frames).uploads, u.1 = u.2.length * bezVertexBytes)
    ∧ (∀ u ∈ (runMsdf mkv mframes).uploads,
        u.1 = u.2.length * msdfVertexBytes)
    ∧ (∀ mkv2 : ℕ → MsdfVertex, ∀ text : List Char,
        (buildTextVertices mkv2 text).length = 6 * text.length)
    ∧ (∀ test : Aabb → Bool, ∀ dist : V3 → ℚ, ∀ N : ℕ, ∀ mmin mmax : V3,
        ∀ u ∈ lodOffsetUploads test dist N mmin mmax,
          u.1 = u.2.length * vec3Bytes)
    ∧ (∀ d : ℕ, (metaballAllocationAt d).1
        = (metaballAllocationAt d).2.length * metaVertexBytes)
    ∧ (∀ d : ℕ, (metaballAllocationAt d).2.length = d * d)
    ∧ metaballAllocation = metaballAllocationAt metaDimension
    ∧ (∀ d : ℕ, (gridUploadAt d).1
        = (gridUploadAt d).2.length * gridVertexBytes)
    ∧ (∀ d : ℕ, (gridUploadAt d).2.length = 4 * (d * d))
    ∧ gridUploadPart003 = gridUploadAt 1024
    ∧ gridUploadHomework1 = gridUploadAt 1024
    ∧ (∀ vs : List ObjFullVertex,
        (practice4Upload vs).1 = (practice4Upload vs).2.length
          * objVertexBytes)
    ∧ (∀ vs : List ObjFullVertex,
        (practice5CowUpload vs).1 = (practice5CowUpload vs).2.length
          * objVertexBytes)
    ∧ (∀ vs : List ObjFullVertex,
        (sponzaSceneUpload vs).1 = (sponzaSceneUpload vs).2.length
          * objVertexBytes) := by
  refine ⟨(bezInvariant_run hyp frames).2.2, msdfUploadsOk_run mkv mframes,
    ?_, ?_, fun d => metaballAllocationAt_matches d,
    fun d => metaballVerticesAt_length d, rfl,
    fun d => gridUploadAt_matches d, fun d => gridVertices_length d,
    rfl, rfl, fun vs => rfl, fun vs => rfl, fun vs => rfl⟩
  · intro mkv2 text
    simp [buildTextVertices]
  · intro test dist N mmin mmax u hu
    rcases List.mem_map.mp hu with ⟨band, _, hband⟩
    rw [← hband]

/-! ### The Sponza shadow program (`unnamed/part_001`) -/

/-- The shadow-pass fragment shader of the Sponza program
(`unnamed/part_001` lines 278-286): with `z = gl_FragCoord.z`, it writes
`vec4(z, z * z + 0.25 * (dFdx(z)^2 + dFdy(z)^2), 0, 0)`; `dx` and `dy`
stand for the screen-space derivatives `dFdx(z)` and `dFdy(z)`. -/
def shadow_fragment (z dx dy : ℚ) : ℚ × ℚ :=
  (z, z * z + (1 / 4) * (dx * dx + dy * dy))

/-- The Chebyshev step of `shadow_factor` (`unnamed/part_001` lines
164-168): `mu` and `g` are the two blurred shadow-map channels and `z`
the (already biased) fragment depth. -/
def chebyshev_factor (mu g z : ℚ) : ℚ :=
  let sigma := g - mu * mu
  if z < mu then 1 else sigma / (sigma + (z - mu) * (z - mu))

/-- `shadow_factor` (`unnamed/part_001` lines 159-171) after the
projection and blur: bias the depth by `0.03`, take the Chebyshev factor,
then remap it through the `delta = 0.125` cutoff. -/
def shadow_factor (mu g posz : ℚ) : ℚ :=
  let z := posz - 3 / 100
  let factor := chebyshev_factor mu g z
  let delta : ℚ := 1 / 8
  if delta < factor then (factor - delta) / (1 - delta) else 0

/-- C3 counterexample: the claim says the shadow pass writes the squared
depth `z²` into the second channel, but the shader adds the
derivative-based term `0.25 * (dFdx(z)² + dFdy(z)²)`: at `z = 1`,
`dFdx(z) = 2`, `dFdy(z) = 0` the second channel is `2`, not `z * z = 1`. -/
theorem c3_second_channel_counterexample :
    (shadow_fragment 1 2 0).1 = 1
    ∧ (shadow_fragment 1 2 0).2 = 2
    ∧ (shadow_fragment 1 2 0).2 ≠ (1 : ℚ) * 1 := by
  refine ⟨rfl, by norm_num [shadow_fragment], by norm_num [shadow_fragment]⟩

/-- C3 (amended): the shadow pass writes the depth `z` into the first
channel and `z² + 0.25·(dFdx(z)² + dFdy(z)²)` into the second; the main
pass computes the Chebyshev occlusion factor from the stored data: the
factor equals 1 when the biased depth is below the stored mean `mu` and
otherwise `sigma / (sigma + (z - mu)²)` with `sigma` the stored second
moment minus `mu²`; the value returned by `shadow_factor` is that factor
remapped through the `0.125` cutoff. -/
theorem c3_variance_shadow_amended (z dx dy mu g posz : ℚ) :
    (shadow_fragment z dx dy).1 = z
    ∧ (shadow_fragment z dx dy).2 = z * z + (dx * dx + dy * dy) / 4
    ∧ chebyshev_factor mu g (posz - 3 / 100)
        = (if posz - 3 / 100 < mu then 1
           else (g - mu * mu) / ((g - mu * mu)
             + (posz - 3 / 100 - mu) * (posz - 3 / 100 - mu)))
    ∧ shadow_factor mu g posz
        = (if 1 / 8 < chebyshev_factor mu g (posz - 3 / 100)
           then (chebyshev_factor mu g (posz - 3 / 100) - 1 / 8)
             / (1 - 1 / 8)
           else 0) := by
  refine ⟨rfl, ?_, rfl, rfl⟩
  simp only [shadow_fragment]
  ring

/-- Witness for the amended C3 at concrete shader inputs. -/
theorem c3_variance_shadow_amended_witness :
    (shadow_fragment 1 2 0).2 = 1 * 1 + (2 * 2 + 0 * 0) / 4 :=
  (c3_variance_shadow_amended 1 2 0 0 1 1).2.1

/-- A vertex position of the parsed Sponza scene (`obj_data::vertex`
positions iterated at `unnamed/part_001` lines 703-711). -/
structure ObjVertex where
  x : ℚ
  y : ℚ
  z : ℚ
deriving DecidableEq, Repr

/-- `std::numeric_limits<float>::max()`, the exact value of `FLT_MAX`. -/
def floatMax : ℚ := 2 ^ 128 - 2 ^ 104

/-- `std::numeric_limits<float>::min()`, the smallest positive normal
float — note this is a tiny positive number, not a very negative one. -/
def floatMinPos : ℚ := 1 / 2 ^ 126

/-- The six accumulators of the scene bounding-box loop
(`unnamed/part_001` lines 695-711). -/
structure SceneBounds where
  minx : ℚ
  miny : ℚ
  minz : ℚ
  maxx : ℚ
  maxy : ℚ
  maxz : ℚ
deriving DecidableEq, Repr

/-- The accumulator initial values from `unnamed/part_001` lines 695-702:
the min components start at `float` max and the max components at
`std::numeric_limits<float>::min()` (the smallest positive normal). -/
def initSceneBounds : SceneBounds :=
  ⟨floatMax, floatMax, floatMax, floatMinPos, floatMinPos, floatMinPos⟩

/-- The loop body at `unnamed/part_001` lines 703-711: fold `min`/`max`
of each coordinate into the accumulators. -/
def boundsStep (b : SceneBounds) (v : ObjVertex) : SceneBounds :=
  ⟨min b.minx v.x, min b.miny v.y, min b.minz v.z,
   max b.maxx v.x, max b.maxy v.y, max b.maxz v.z⟩

/-- The scene bounding box computed by the loop at `unnamed/part_001`
lines 695-711. -/
def sceneBounds (vs : List ObjVertex) : SceneBounds :=
  vs.foldl boundsStep initSceneBounds

theorem boundsFold_shrink (vs : List ObjVertex) (b : SceneBounds) :
    (vs.foldl boundsStep b).minx ≤ b.minx
    ∧ (vs.foldl boundsStep b).miny ≤ b.miny
    ∧ (vs.foldl boundsStep b).minz ≤ b.minz
    ∧ b.maxx ≤ (vs.foldl boundsStep b).maxx
    ∧ b.maxy ≤ (vs.foldl boundsStep b).maxy
    ∧ b.maxz ≤ (vs.foldl boundsStep b).maxz := by
  induction vs generalizing b with
  | nil => exact ⟨le_refl _, le_refl _, le_refl _, le_refl _, le_refl _,
      le_refl _⟩
  | cons a t ih =>
    rw [List.foldl_cons]
    have h := ih (boundsStep b a)
    exact ⟨le_trans h.1 (min_le_left _ _),
      le_trans h.2.1 (min_le_left _ _),
      le_trans h.2.2.1 (min_le_left _ _),
      le_trans (le_max_left _ _) h.2.2.2.1,
      le_trans (le_max_left _ _) h.2.2.2.2.1,
      le_trans (le_max_left _ _) h.2.2.2.2.2⟩

theorem boundsFold_contains (vs : List ObjVertex) (b : SceneBounds)
    (v : ObjVertex) (hv : v ∈ vs) :
    (vs.foldl boundsStep b).minx ≤ v.x
    ∧ v.x ≤ (vs.foldl boundsStep b).maxx
    ∧ (vs.foldl boundsStep b).miny ≤ v.y
    ∧ v.y ≤ (vs.foldl boundsStep b).maxy
    ∧ (vs.foldl boundsStep b).minz ≤ v.z
    ∧ v.z ≤ (vs.foldl boundsStep b).maxz := by
  induction vs generalizing b with
  | nil => simp at hv
  | cons a t ih =>
    rw [List.foldl_cons]
    rcases List.mem_cons.mp hv with rfl | hvt
    · have h := boundsFold_shrink t (boundsStep b v)
      exact ⟨le_trans h.1 (min_le_right _ _),
        le_trans (le_max_right _ _) h.2.2.2.1,
        le_trans h.2.1 (min_le_right _ _),
        le_trans (le_max_right _ _) h.2.2.2.2.1,
        le_trans h.2.2.1 (min_le_right _ _),
        le_trans (le_max_right _ _) h.2.2.2.2.2⟩
    · exact ih (boundsStep b a) hvt

/-- C10: in the Sponza shadow program, the scene bounding box computed by
folding min/max over all vertices contains every vertex: for every
non-empty vertex list, `minx <= v.x <= maxx`, `miny <= v.y <= maxy` and
`minz <= v.z <= maxz` hold for every vertex `v` of the list. -/
theorem c10_scene_bounds_contain (vs : List ObjVertex) (hne : vs ≠ [])
    (v : ObjVertex) (hv : v ∈ vs) :
    (sceneBounds vs).minx ≤ v.x ∧ v.x ≤ (sceneBounds vs).maxx
    ∧ (sceneBounds vs).miny ≤ v.y ∧ v.y ≤ (sceneBounds vs).maxy
    ∧ (sceneBounds vs).minz ≤ v.z ∧ v.z ≤ (sceneBounds vs).maxz :=
  boundsFold_contains vs initSceneBounds v hv

/-- A concrete vertex list used to instantiate the C10 theorem. -/
def c10wVs : List ObjVertex := [⟨1, 2, 3⟩, ⟨-5, 0, 7⟩]

/-- A member of `c10wVs` used to instantiate the C10 theorem. -/
def c10wV : ObjVertex := ⟨-5, 0, 7⟩

/-- Witness for C10 at a concrete vertex list and member. -/
theorem c10_scene_bounds_contain_witness :
    (sceneBounds c10wVs).minx ≤ c10wV.x
    ∧ c10wV.x ≤ (sceneBounds c10wVs).maxx
    ∧ (sceneBounds c10wVs).miny ≤ c10wV.y
    ∧ c10wV.y ≤ (sceneBounds c10wVs).maxy
    ∧ (sceneBounds c10wVs).minz ≤ c10wV.z
    ∧ c10wV.z ≤ (sceneBounds c10wVs).maxz :=
  c10_scene_bounds_contain c10wVs (by decide) c10wV (by decide)

/-! ### Shader pair counts per program (C7) -/

/-- The shader-related GL operations performed during a program's
startup. -/
inductive GLCallKind
  | compileVertex
  | compileFragment
  | linkProgram
deriving DecidableEq, Repr

/-- Startup shader operations of `unnamed/part_000` (lines 207-209). -/
def shaderTracePart000 : List GLCallKind :=
  [.compileVertex, .compileFragment, .linkProgram]

/-- Startup shader operations of the Sponza program `unnamed/part_001`
(lines 538-563): four vertex/fragment pairs (scene, rectangle, shadow,
bunny), then four program links. -/
def shaderTracePart001 : List GLCallKind :=
  [.compileVertex, .compileFragment, .compileVertex, .compileFragment,
   .compileVertex, .compileFragment, .compileVertex, .compileFragment,
   .linkProgram, .linkProgram, .linkProgram, .linkProgram]

/-- Startup shader operations of `unnamed/part_002` (lines 123-141): the
fragment shader is compiled before the vertex shader. -/
def shaderTracePart002 : List GLCallKind :=
  [.compileFragment, .compileVertex, .linkProgram]

/-- Startup shader operations of the metaball program in
`unnamed/part_003` (lines 284-287). -/
def shaderTracePart003Meta : List GLCallKind :=
  [.compileVertex, .compileFragment, .linkProgram]

/-- Startup shader operations of the grid program in `unnamed/part_003`
(lines 610-613). -/
def shaderTracePart003Grid : List GLCallKind :=
  [.compileVertex, .compileFragment, .linkProgram]

/-- Startup shader operations of `practice4/main.cpp` (lines 163-166). -/
def shaderTracePractice4 : List GLCallKind :=
  [.compileVertex, .compileFragment, .linkProgram]

/-- Startup shader operations of the cow program in `practice5/main.cpp`
(lines 197-200). -/
def shaderTracePractice5Cow : List GLCallKind :=
  [.compileVertex, .compileFragment, .linkProgram]

/-- Startup shader operations of the hexagon program in
`practice5/main.cpp` (lines 554-557). -/
def shaderTracePractice5Hex : List GLCallKind :=
  [.compileVertex, .compileFragment, .linkProgram]

/-- Startup shader operations of `practice14/main.cpp` (lines 216-219). -/
def shaderTracePractice14 : List GLCallKind :=
  [.compileVertex, .compileFragment, .linkProgram]

/-- Startup shader operations of `practice15/main.cpp` (lines 174-178). -/
def shaderTracePractice15 : List GLCallKind :=
  [.compileVertex, .compileFragment, .linkProgram]

/-- Startup shader operations of `homework1/main.cpp` (lines 307-310). -/
def shaderTraceHomework1 : List GLCallKind :=
  [.compileVertex, .compileFragment, .linkProgram]

/-- The startup shader traces of all eleven programs in the repository. -/
def programShaderTraces : List (List GLCallKind) :=
  [shaderTracePart000, shaderTracePart001, shaderTracePart002,
   shaderTracePart003Meta, shaderTracePart003Grid, shaderTracePractice4,
   shaderTracePractice5Cow, shaderTracePractice5Hex, shaderTracePractice14,
   shaderTracePractice15, shaderTraceHomework1]

/-- C7 as stated: every program compiles exactly one vertex shader, one
fragment shader and links exactly one program object during startup. -/
def claimEveryProgramOnePair : Prop :=
  ∀ t ∈ programShaderTraces,
    t.count GLCallKind.compileVertex = 1
    ∧ t.count GLCallKind.compileFragment = 1
    ∧ t.count GLCallKind.linkProgram = 1

/-- C7 counterexample: the claim fails on the Sponza program
(`unnamed/part_001`), which compiles four shader pairs and links four
program objects. -/
theorem c7_one_pair_counterexample : ¬ claimEveryProgramOnePair := by
  intro h
  have := (h shaderTracePart001 (by decide)).1
  exact absurd this (by decide)

/-- C7 (amended): every program compiles at least one vertex shader, one
fragment shader and one linked program during startup; every program
except the Sponza one compiles exactly one of each, while the Sponza
program compiles four vertex shaders, four fragment shaders and links
four program objects. -/
theorem c7_shader_pairs_amended :
    (∀ t ∈ programShaderTraces,
      1 ≤ t.count GLCallKind.compileVertex
      ∧ 1 ≤ t.count GLCallKind.compileFragment
      ∧ 1 ≤ t.count GLCallKind.linkProgram)
    ∧ (∀ t ∈ programShaderTraces, t ≠ shaderTracePart001 →
        t.count GLCallKind.compileVertex = 1
        ∧ t.count GLCallKind.compileFragment = 1
        ∧ t.count GLCallKind.linkProgram = 1)
    ∧ shaderTracePart001.count GLCallKind.compileVertex = 4
    ∧ shaderTracePart001.count GLCallKind.compileFragment = 4
    ∧ shaderTracePart001.count GLCallKind.linkProgram = 4 := by
  decide

/-! ### Error handling at startup (C4) -/

/-- The outcomes of the external calls a program's startup checks: the
driver-reported error strings of `SDL_Init`, `SDL_CreateWindow`,
`SDL_GL_CreateContext` (`SDL_GetError()`) and `glewInit`
(`glewGetErrorString`), the `GLEW_VERSION_3_3` flag, the per-call
compile/link info logs (`some log` means call number `n` failed with that
log), and — for the Sponza program — the OBJ parse result and the two
framebuffer-completeness checks. -/
structure GlEnv where
  sdlInitErr : Option String
  createWindowErr : Option String
  createContextErr : Option String
  glewInitErr : Option String
  glew33 : Bool
  compileLog : ℕ → Option String
  linkLog : ℕ → Option String
  objParseOk : Bool
  fbComplete : Bool
  fbComplete2 : Bool

/-- How a program run ends: the render loop is reached (`success`), an
exception reaches the top-level catch, which prints the message and
returns `EXIT_FAILURE` (`caught`), or `exit(code)` is called directly
(`exited`). -/
inductive RunOutcome
  | success
  | caught (msg : String)
  | exited (code : ℕ)
deriving DecidableEq, Repr

/-- The initialization check sequence shared verbatim by every program
(e.g. `unnamed/part_000` lines 171-203): `SDL_Init`, `SDL_CreateWindow`
and `SDL_GL_CreateContext` failures throw via `sdl2_fail` (message =
call name + `SDL_GetError()`), a `glewInit` failure throws via
`glew_fail` (message = "glewInit: " + `glewGetErrorString`), and a
missing GL 3.3 throws the fixed message. -/
def initFailure (e : GlEnv) : Option String :=
  match e.sdlInitErr with
  | some s => some ("SDL_Init: " ++ s)
  | none =>
    match e.createWindowErr with
    | some s => some ("SDL_CreateWindow: " ++ s)
    | none =>
      match e.createContextErr with
      | some s => some ("SDL_GL_CreateContext: " ++ s)
      | none =>
        match e.glewInitErr with
        | some s => some ("glewInit: " ++ s)
        | none =>
          if e.glew33 then none else some "OpenGL 3.3 is not supported"

/-- The startup of the nine programs that compile one vertex shader, one
fragment shader and link one program, with the prefixed `create_shader` /
`create_program` messages (e.g. `unnamed/part_000` lines 69-106,
`practice14/main.cpp` lines 96-132). -/
def runStandard (e : GlEnv) : RunOutcome :=
  match initFailure e with
  | some m => .caught m
  | none =>
    match e.compileLog 0 with
    | some log => .caught ("Shader compilation failed: " ++ log)
    | none =>
      match e.compileLog 1 with
      | some log => .caught ("Shader compilation failed: " ++ log)
      | none =>
        match e.linkLog 0 with
        | some log => .caught ("Program linkage failed: " ++ log)
        | none => .success

/-- The startup of `unnamed/part_002`, whose `create_shader` and
`create_program` (lines 32-71) throw the raw info log without a
descriptive message (and compile the fragment shader first). -/
def runRawLog (e : GlEnv) : RunOutcome :=
  match initFailure e with
  | some m => .caught m
  | none =>
    match e.compileLog 0 with
    | some log => .caught log
    | none =>
      match e.compileLog 1 with
      | some log => .caught log
      | none =>
        match e.linkLog 0 with
        | some log => .caught log
        | none => .success

/-- The first failing call among the calls numbered `0, ..., n - 1`. -/
def firstLog (f : ℕ → Option String) : ℕ → Option String
  | 0 => none
  | n + 1 =>
    match firstLog f n with
    | some l => some l
    | none => f n

/-- The startup of the Sponza program `unnamed/part_001`: eight shader
compiles and four program links (lines 538-563), then the OBJ parse whose
failure calls `exit(1)` directly (lines 630-636), then the two
framebuffer-completeness checks (lines 767-768 and 797-798) with their
fixed messages. -/
def runSponza (e : GlEnv) : RunOutcome :=
  match initFailure e with
  | some m => .caught m
  | none =>
    match firstLog e.compileLog 8 with
    | some log => .caught ("Shader compilation failed: " ++ log)
    | none =>
      match firstLog e.linkLog 4 with
      | some log => .caught ("Program linkage failed: " ++ log)
      | none =>
        if !e.objParseOk then .exited 1
        else if !e.fbComplete then .caught "Framebuffer incomplete"
        else if !e.fbComplete2 then .caught "Framebuffer incomplete2"
        else .success

/-- `unnamed/part_000` (Bezier curves). -/
def run_part_000 : GlEnv → RunOutcome := runStandard

/-- `unnamed/part_001` (Sponza shadows). -/
def run_part_001 : GlEnv → RunOutcome := runSponza

/-- `unnamed/part_002` (first triangle). -/
def run_part_002 : GlEnv → RunOutcome := runRawLog

/-- `unnamed/part_003`, first program (metaballs). -/
def run_part_003_metaballs : GlEnv → RunOutcome := runStandard

/-- `unnamed/part_003`, second program (grid). -/
def run_part_003_grid : GlEnv → RunOutcome := runStandard

/-- `practice4/main.cpp`. -/
def run_practice4 : GlEnv → RunOutcome := runStandard

/-- `practice5/main.cpp`, first program (cow). -/
def run_practice5_cow : GlEnv → RunOutcome := runStandard

/-- `practice5/main.cpp`, second program (hexagon). -/
def run_practice5_hexagon : GlEnv → RunOutcome := runStandard

/-- `practice14/main.cpp`. -/
def run_practice14 : GlEnv → RunOutcome := runStandard

/-- `practice15/main.cpp`. -/
def run_practice15 : GlEnv → RunOutcome := runStandard

/-- `homework1/main.cpp`. -/
def run_homework1 : GlEnv → RunOutcome := runStandard

/-- The startup models of all eleven programs in the repository. -/
def programRuns : List (GlEnv → RunOutcome) :=
  [run_part_000, run_part_001, run_part_002, run_part_003_metaballs,
   run_part_003_grid, run_practice4, run_practice5_cow,
   run_practice5_hexagon, run_practice14, run_practice15, run_homework1]

/-- The failure kinds listed by C4: window/context creation (including
`SDL_Init` and `glewInit`), shader compilation, program linkage. -/
def listedFailure (e : GlEnv) : Prop :=
  e.sdlInitErr ≠ none ∨ e.createWindowErr ≠ none
  ∨ e.createContextErr ≠ none ∨ e.glewInitErr ≠ none
  ∨ (∃ n, e.compileLog n ≠ none) ∨ (∃ n, e.linkLog n ≠ none)

/-- Every external call of the startup succeeds. -/
def allExternalOk (e : GlEnv) : Prop :=
  e.sdlInitErr = none ∧ e.createWindowErr = none
  ∧ e.createContextErr = none ∧ e.glewInitErr = none ∧ e.glew33 = true
  ∧ (∀ n, e.compileLog n = none) ∧ (∀ n, e.linkLog n = none)
  ∧ e.objParseOk = true ∧ e.fbComplete = true ∧ e.fbComplete2 = true

/-- C4 as stated: in every program, on success no exception is raised,
and exactly the listed class of failures (window/context creation with an
SDL or GLEW error string, shader compilation or program linkage with an
info log) reaches the top-level catch. -/
def claimListedFailuresExactly : Prop :=
  ∀ r ∈ programRuns, ∀ e : GlEnv,
    (allExternalOk e → r e = RunOutcome.success)
    ∧ ∀ msg, r e = RunOutcome.caught msg → listedFailure e

/-- The environment in which every external call succeeds but the
`GLEW_VERSION_3_3` check fails. -/
def envVersionFail : GlEnv :=
  { sdlInitErr := none, createWindowErr := none, createContextErr := none,
    glewInitErr := none, glew33 := false, compileLog := fun _ => none,
    linkLog := fun _ => none, objParseOk := true, fbComplete := true,
    fbComplete2 := true }

/-- C4 counterexample: when every listed external call succeeds but the
driver only offers a GL version below 3.3, the fixed-message exception
"OpenGL 3.3 is not supported" still reaches the top-level catch, so the
listed failures are not exactly the exception class that reaches it (and
the message contains no driver-provided string). -/
theorem c4_listed_failures_counterexample : ¬ claimListedFailuresExactly := by
  intro h
  have hmem : run_part_000 ∈ programRuns := by
    simp [programRuns]
  have h2 := (h run_part_000 hmem envVersionFail).2
    "OpenGL 3.3 is not supported" rfl
  rcases h2 with h3 | h3 | h3 | h3 | ⟨n, h3⟩ | ⟨n, h3⟩ <;>
    simp [envVersionFail] at h3

/-- The standard startup succeeds exactly when its checked calls all
succeed. -/
def stdOk (e : GlEnv) : Prop :=
  initFailure e = none ∧ e.compileLog 0 = none ∧ e.compileLog 1 = none
  ∧ e.linkLog 0 = none

/-- The messages the shared initialization sequence can throw: the call
name followed by the SDL/GLEW error string, or the fixed version-check
message. -/
def initCaughtShape (e : GlEnv) (msg : String) : Prop :=
  (∃ s, e.sdlInitErr = some s ∧ msg = "SDL_Init: " ++ s)
  ∨ (∃ s, e.createWindowErr = some s ∧ msg = "SDL_CreateWindow: " ++ s)
  ∨ (∃ s, e.createContextErr = some s ∧ msg = "SDL_GL_CreateContext: " ++ s)
  ∨ (∃ s, e.glewInitErr = some s ∧ msg = "glewInit: " ++ s)
  ∨ (e.glew33 = false ∧ msg = "OpenGL 3.3 is not supported")

/-- The messages a standard-startup program can throw: an initialization
message, or a compile/link failure message carrying the info log. -/
def stdCaughtShape (e : GlEnv) (msg : String) : Prop :=
  initCaughtShape e msg
  ∨ (∃ n log, e.compileLog n = some log
      ∧ msg = "Shader compilation failed: " ++ log)
  ∨ (∃ n log, e.linkLog n = some log
      ∧ msg = "Program linkage failed: " ++ log)

/-- The messages `unnamed/part_002` can throw: an initialization message,
or a raw compile/link info log. -/
def rawCaughtShape (e : GlEnv) (msg : String) : Prop :=
  initCaughtShape e msg
  ∨ (∃ n log, e.compileLog n = some log ∧ msg = log)
  ∨ (∃ n log, e.linkLog n = some log ∧ msg = log)

/-- The messages the Sponza program can throw: the standard ones plus the
two fixed framebuffer-completeness messages. -/
def sponzaCaughtShape (e : GlEnv) (msg : String) : Prop :=
  stdCaughtShape e msg
  ∨ msg = "Framebuffer incomplete" ∨ msg = "Framebuffer incomplete2"

/-- The Sponza startup succeeds exactly when its checked calls succeed. -/
def sponzaOk (e : GlEnv) : Prop :=
  initFailure e = none ∧ (∀ k < 8, e.compileLog k = none)
  ∧ (∀ k < 4, e.linkLog k = none) ∧ e.objParseOk = true
  ∧ e.fbComplete = true ∧ e.fbComplete2 = true

theorem initFailure_some_shape (e : GlEnv) (m : String)
    (h : initFailure e = some m) : initCaughtShape e m := by
  unfold initFailure at h
  cases h0 : e.sdlInitErr with
  | some s =>
    rw [h0] at h
    exact Or.inl ⟨s, h0, by simpa using h.symm⟩
  | none =>
    rw [h0] at h
    cases h1 : e.createWindowErr with
    | some s =>
      rw [h1] at h
      exact Or.inr (Or.inl ⟨s, h1, by simpa using h.symm⟩)
    | none =>
      rw [h1] at h
      cases h2 : e.createContextErr with
      | some s =>
        rw [h2] at h
        exact Or.inr (Or.inr (Or.inl ⟨s, h2, by simpa using h.symm⟩))
      | none =>
        rw [h2] at h
        cases h3 : e.glewInitErr with
        | some s =>
          rw [h3] at h
          exact Or.inr (Or.inr (Or.inr (Or.inl ⟨s, h3,
            by simpa using h.symm⟩)))
        | none =>
          rw [h3] at h
          cases h4 : e.glew33 with
          | false =>
            rw [h4] at h
            simp at h
            exact Or.inr (Or.inr (Or.inr (Or.inr ⟨h4, h.symm⟩)))
          | true =>
            rw [h4] at h
            simp at h

theorem initFailure_none_of_ok (e : GlEnv) (h1 : e.sdlInitErr = none)
    (h2 : e.createWindowErr = none) (h3 : e.createContextErr = none)
    (h4 : e.glewInitErr = none) (h5 : e.glew33 = true) :
    initFailure e = none := by
  unfold initFailure
  rw [h1, h2, h3, h4, h5]
  simp

theorem runStandard_success_iff (e : GlEnv) :
    runStandard e = RunOutcome.success ↔ stdOk e := by
  unfold runStandard stdOk
  cases h0 : initFailure e with
  | some m => simp
  | none =>
    cases h1 : e.compileLog 0 with
    | some l => simp
    | none =>
      cases h2 : e.compileLog 1 with
      | some l => simp
      | none =>
        cases h3 : e.linkLog 0 with
        | some l => simp
        | none => simp

theorem runStandard_caught_shape (e : GlEnv) (msg : String)
    (h : runStandard e = RunOutcome.caught msg) : stdCaughtShape e msg := by
  unfold runStandard at h
  cases h0 : initFailure e with
  | some m =>
    rw [h0] at h
    simp only [RunOutcome.caught.injEq] at h
    exact Or.inl (h ▸ initFailure_some_shape e m h0)
  | none =>
    rw [h0] at h
    cases h1 : e.compileLog 0 with
    | some l =>
      rw [h1] at h
      simp only [RunOutcome.caught.injEq] at h
      exact Or.inr (Or.inl ⟨0, l, h1, h.symm⟩)
    | none =>
      rw [h1] at h
      cases h2 : e.compileLog 1 with
      | some l =>
        rw [h2] at h
        simp only [RunOutcome.caught.injEq] at h
        exact Or.inr (Or.inl ⟨1, l, h2, h.symm⟩)
      | none =>
        rw [h2] at h
        cases h3 : e.linkLog 0 with
        | some l =>
          rw [h3] at h
          simp only [RunOutcome.caught.injEq] at h
          exact Or.inr (Or.inr ⟨0, l, h3, h.symm⟩)
        | none =>
          rw [h3] at h
          simp at h

theorem runStandard_no_exit (e : GlEnv) (c : ℕ) :
    runStandard e ≠ RunOutcome.exited c := by
  unfold runStandard
  cases h0 : initFailure e with
  | some m => simp
  | none =>
    cases h1 : e.compileLog 0 with
    | some l => simp
    | none =>
      cases h2 : e.compileLog 1 with
      | some l => simp
      | none =>
        cases h3 : e.linkLog 0 with
        | some l => simp
        | none => simp

theorem runRawLog_success_iff (e : GlEnv) :
    runRawLog e = RunOutcome.success ↔ stdOk e := by
  unfold runRawLog stdOk
  cases h0 : initFailure e with
  | some m => simp
  | none =>
    cases h1 : e.compileLog 0 with
    | some l => simp
    | none =>
      cases h2 : e.compileLog 1 with
      | some l => simp
      | none =>
        cases h3 : e.linkLog 0 with
        | some l => simp
        | none => simp

theorem runRawLog_caught_shape (e : GlEnv) (msg : String)
    (h : runRawLog e = RunOutcome.caught msg) : rawCaughtShape e msg := by
  unfold runRawLog at h
  cases h0 : initFailure e with
  | some m =>
    rw [h0] at h
    simp only [RunOutcome.caught.injEq] at h
    exact Or.inl (h ▸ initFailure_some_shape e m h0)
  | none =>
    rw [h0] at h
    cases h1 : e.compileLog 0 with
    | some l =>
      rw [h1] at h
      simp only [RunOutcome.caught.injEq] at h
      exact Or.inr (Or.inl ⟨0, l, h1, h.symm⟩)
    | none =>
      rw [h1] at h
      cases h2 : e.compileLog 1 with
      | some l =>
        rw [h2] at h
        simp only [RunOutcome.caught.injEq] at h
        exact Or.inr (Or.inl ⟨1, l, h2, h.symm⟩)
      | none =>
        rw [h2] at h
        cases h3 : e.linkLog 0 with
        | some l =>
          rw [h3] at h
          simp only [RunOutcome.caught.injEq] at h
          exact Or.inr (Or.inr ⟨0, l, h3, h.symm⟩)
        | none =>
          rw [h3] at h
          simp at h

theorem runRawLog_no_exit (e : GlEnv) (c : ℕ) :
    runRawLog e ≠ RunOutcome.exited c := by
  unfold runRawLog
  cases h0 : initFailure e with
  | some m => simp
  | none =>
    cases h1 : e.compileLog 0 with
    | some l => simp
    | none =>
      cases h2 : e.compileLog 1 with
      | some l => simp
      | none =>
        cases h3 : e.linkLog 0 with
        | some l => simp
        | none => simp

theorem firstLog_eq_none_iff (f : ℕ → Option String) (n : ℕ) :
    firstLog f n = none ↔ ∀ k < n, f k = none := by
  induction n with
  | zero => simp [firstLog]
  | succ m ih =>
    constructor
    · intro h k hk
      unfold firstLog at h
      cases hm : firstLog f m with
      | some l => rw [hm] at h; simp at h
      | none =>
        rw [hm] at h
        rcases Nat.lt_succ_iff_lt_or_eq.mp hk with hlt | rfl
        · exact ih.mp hm k hlt
        · exact h
    · intro h
      unfold firstLog
      have hm : firstLog f m = none :=
        ih.mpr (fun k hk => h k (Nat.lt_succ_of_lt hk))
      rw [hm]
      exact h m (Nat.lt_succ_self m)

theorem firstLog_some (f : ℕ → Option String) (n : ℕ) (log : String)
    (h : firstLog f n = some log) : ∃ k, k < n ∧ f k = some log := by
  induction n with
  | zero => simp [firstLog] at h
  | succ m ih =>
    unfold firstLog at h
    cases hm : firstLog f m with
    | some l =>
      rw [hm] at h
      simp only [Option.some.injEq] at h
      obtain ⟨k, hk, hfk⟩ := ih (h ▸ hm)
      exact ⟨k, Nat.lt_succ_of_lt hk, hfk⟩
    | none =>
      rw [hm] at h
      exact ⟨m, Nat.lt_succ_self m, h⟩

theorem runSponza_success_iff (e : GlEnv) :
    runSponza e = RunOutcome.success ↔ sponzaOk e := by
  unfold runSponza sponzaOk
  cases h0 : initFailure e with
  | some m => simp
  | none =>
    cases h1 : firstLog e.compileLog 8 with
    | some l =>
      simp only [reduceCtorEq, false_iff]
      intro hok
      have := (firstLog_eq_none_iff e.compileLog 8).mpr hok.2.1
      rw [h1] at this
      simp at this
    | none =>
      cases h2 : firstLog e.linkLog 4 with
      | some l =>
        simp only [reduceCtorEq, false_iff]
        intro hok
        have := (firstLog_eq_none_iff e.linkLog 4).mpr hok.2.2.1
        rw [h2] at this
        simp at this
      | none =>
        have hc := (firstLog_eq_none_iff e.compileLog 8).mp h1
        have hl := (firstLog_eq_none_iff e.linkLog 4).mp h2
        cases ho : e.objParseOk with
        | false => simp [hc, hl, ho]
        | true =>
          cases hf1 : e.fbComplete with
          | false => simp [hc, hl, ho, hf1]
          | true =>
            cases hf2 : e.fbComplete2 with
            | false => simp [hc, hl, ho, hf1, hf2]
            | true =>
              simp
              exact ⟨hc, hl⟩

theorem runSponza_caught_shape (e : GlEnv) (msg : String)
    (h : runSponza e = RunOutcome.caught msg) : sponzaCaughtShape e msg := by
  unfold runSponza at h
  cases h0 : initFailure e with
  | some m =>
    rw [h0] at h
    simp only [RunOutcome.caught.injEq] at h
    exact Or.inl (Or.inl (h ▸ initFailure_some_shape e m h0))
  | none =>
    rw [h0] at h
    cases h1 : firstLog e.compileLog 8 with
    | some l =>
      rw [h1] at h
      simp only [RunOutcome.caught.injEq] at h
      obtain ⟨k, _, hfk⟩ := firstLog_some e.compileLog 8 l h1
      exact Or.inl (Or.inr (Or.inl ⟨k, l, hfk, h.symm⟩))
    | none =>
      rw [h1] at h
      cases h2 : firstLog e.linkLog 4 with
      | some l =>
        rw [h2] at h
        simp only [RunOutcome.caught.injEq] at h
        obtain ⟨k, _, hfk⟩ := firstLog_some e.linkLog 4 l h2
        exact Or.inl (Or.inr (Or.inr ⟨k, l, hfk, h.symm⟩))
      | none =>
        rw [h2] at h
        cases ho : e.objParseOk with
        | false => rw [ho] at h; simp at h
        | true =>
          rw [ho] at h
          cases hf1 : e.fbComplete with
          | false =>
            rw [hf1] at h
            simp only [Bool.not_true, Bool.not_false, if_true, if_false,
              Bool.false_eq_true, RunOutcome.caught.injEq] at h
            exact Or.inr (Or.inl h.symm)
          | true =>
            rw [hf1] at h
            cases hf2 : e.fbComplete2 with
            | false =>
              rw [hf2] at h
              simp only [Bool.not_true, Bool.not_false, if_true, if_false,
                Bool.false_eq_true, RunOutcome.caught.injEq] at h
              exact Or.inr (Or.inr h.symm)
            | true =>
              rw [hf2] at h
              simp at h

theorem runSponza_exit (e : GlEnv) (c : ℕ)
    (h : runSponza e = RunOutcome.exited c) :
    c = 1 ∧ e.objParseOk = false := by
  unfold runSponza at h
  cases h0 : initFailure e with
  | some m => rw [h0] at h; simp at h
  | none =>
    rw [h0] at h
    cases h1 : firstLog e.compileLog 8 with
    | some l => rw [h1] at h; simp at h
    | none =>
      rw [h1] at h
      cases h2 : firstLog e.linkLog 4 with
      | some l => rw [h2] at h; simp at h
      | none =>
        rw [h2] at h
        cases ho : e.objParseOk with
        | false =>
          rw [ho] at h
          simp only [Bool.not_false, if_true, RunOutcome.exited.injEq] at h
          exact ⟨h.symm, rfl⟩
        | true =>
          rw [ho] at h
          cases hf1 : e.fbComplete with
          | false => rw [hf1] at h; simp at h
          | true =>
            rw [hf1] at h
            cases hf2 : e.fbComplete2 with
            | false => rw [hf2] at h; simp at h
            | true => rw [hf2] at h; simp at h

theorem stdOk_of_allOk (e : GlEnv) (h : allExternalOk e) : stdOk e := by
  obtain ⟨h1, h2, h3, h4, h5, h6, h7, _, _, _⟩ := h
  exact ⟨initFailure_none_of_ok e h1 h2 h3 h4 h5, h6 0, h6 1, h7 0⟩

theorem sponzaOk_of_allOk (e : GlEnv) (h : allExternalOk e) : sponzaOk e := by
  obtain ⟨h1, h2, h3, h4, h5, h6, h7, h8, h9, h10⟩ := h
  exact ⟨initFailure_none_of_ok e h1 h2 h3 h4 h5, fun k _ => h6 k,
    fun k _ => h7 k, h8, h9, h10⟩

/-- C4 (amended): in every program, the listed failures — window/context
creation, `glewInit`, shader compilation, program linkage — raise
exceptions carrying the documented message (call name or failure label
followed by the driver/compiler-provided string; `unnamed/part_002`
throws the raw info log), and these reach the top-level catch, which
prints the message and exits with failure; additionally the fixed-message
`OpenGL 3.3 is not supported` check, and in the Sponza program the two
framebuffer-completeness checks, reach the same catch, while the Sponza
OBJ-parse failure exits with status 1 directly without an exception; when
every external call succeeds, every program reaches its render loop with
no exception. -/
theorem c4_error_handling_amended (e : GlEnv) :
    (∀ r ∈ programRuns, allExternalOk e → r e = RunOutcome.success)
    ∧ (∀ r ∈ [run_part_000, run_part_003_metaballs, run_part_003_grid,
        run_practice4, run_practice5_cow, run_practice5_hexagon,
        run_practice14, run_practice15, run_homework1],
        (r e = RunOutcome.success ↔ stdOk e)
        ∧ (∀ msg, r e = RunOutcome.caught msg → stdCaughtShape e msg)
        ∧ (∀ c, r e ≠ RunOutcome.exited c))
    ∧ ((run_part_002 e = RunOutcome.success ↔ stdOk e)
        ∧ (∀ msg, run_part_002 e = RunOutcome.caught msg
            → rawCaughtShape e msg)
        ∧ (∀ c, run_part_002 e ≠ RunOutcome.exited c))
    ∧ ((run_part_001 e = RunOutcome.success ↔ sponzaOk e)
        ∧ (∀ msg, run_part_001 e = RunOutcome.caught msg
            → sponzaCaughtShape e msg)
        ∧ (∀ c, run_part_001 e = RunOutcome.exited c
            → c = 1 ∧ e.objParseOk = false)) := by
  have hstd : ∀ r ∈ [run_part_000, run_part_003_metaballs,
      run_part_003_grid, run_practice4, run_practice5_cow,
      run_practice5_hexagon, run_practice14, run_practice15,
      run_homework1],
      (r e = RunOutcome.success ↔ stdOk e)
      ∧ (∀ msg, r e = RunOutcome.caught msg → stdCaughtShape e msg)
      ∧ (∀ c, r e ≠ RunOutcome.exited c) := by
    intro r hr
    simp only [List.mem_cons, List.mem_singleton] at hr
    rcases hr with rfl | rfl | rfl | rfl | rfl | rfl | rfl | rfl | rfl
      | hfalse
    case _ => exact ⟨runStandard_success_iff e,
      fun msg => runStandard_caught_shape e msg,
      fun c => runStandard_no_exit e c⟩
    case _ => exact ⟨runStandard_success_iff e,
      fun msg => runStandard_caught_shape e msg,
      fun c => runStandard_no_exit e c⟩
    case _ => exact ⟨runStandard_success_iff e,
      fun msg => runStandard_caught_shape e msg,
      fun c => runStandard_no_exit e c⟩
    case _ => exact ⟨runStandard_success_iff e,
      fun msg => runStandard_caught_shape e msg,
      fun c => runStandard_no_exit e c⟩
    case _ => exact ⟨runStandard_success_iff e,
      fun msg => runStandard_caught_shape e msg,
      fun c => runStandard_no_exit e c⟩
    case _ => exact ⟨runStandard_success_iff e,
      fun msg => runStandard_caught_shape e msg,
      fun c => runStandard_no_exit e c⟩
    case _ => exact ⟨runStandard_success_iff e,
      fun msg => runStandard_caught_shape e msg,
      fun c => runStandard_no_exit e c⟩
    case _ => exact ⟨runStandard_success_iff e,
      fun msg => runStandard_caught_shape e msg,
      fun c => runStandard_no_exit e c⟩
    case _ => exact ⟨runStandard_success_iff e,
      fun msg => runStandard_caught_shape e msg,
      fun c => runStandard_no_exit e c⟩
    case _ => exact absurd hfalse (by simp)
  refine ⟨?_, hstd, ⟨runRawLog_success_iff e,
    fun msg => runRawLog_caught_shape e msg,
    fun c => runRawLog_no_exit e c⟩,
    ⟨runSponza_success_iff e, fun msg => runSponza_caught_shape e msg,
     fun c => runSponza_exit e c⟩⟩
  intro r hr hok
  simp only [programRuns, List.mem_cons, List.mem_singleton] at hr
  rcases hr with rfl | rfl | rfl | rfl | rfl | rfl | rfl | rfl | rfl | rfl
    | rfl | hfalse
  case _ => exact (runStandard_success_iff e).mpr (stdOk_of_allOk e hok)
  case _ => exact (runSponza_success_iff e).mpr (sponzaOk_of_allOk e hok)
  case _ => exact (runRawLog_success_iff e).mpr (stdOk_of_allOk e hok)
  case _ => exact (runStandard_success_iff e).mpr (stdOk_of_allOk e hok)
  case _ => exact (runStandard_success_iff e).mpr (stdOk_of_allOk e hok)
  case _ => exact (runStandard_success_iff e).mpr (stdOk_of_allOk e hok)
  case _ => exact (runStandard_success_iff e).mpr (stdOk_of_allOk e hok)
  case _ => exact (runStandard_success_iff e).mpr (stdOk_of_allOk e hok)
  case _ => exact (runStandard_success_iff e).mpr (stdOk_of_allOk e hok)
  case _ => exact (runStandard_success_iff e).mpr (stdOk_of_allOk e hok)
  case _ => exact (runStandard_success_iff e).mpr (stdOk_of_allOk e hok)
  case _ => exact absurd hfalse (by simp)

/-- The environment in which every external call succeeds. -/
def envAllOk : GlEnv :=
  { sdlInitErr := none, createWindowErr := none, createContextErr := none,
    glewInitErr := none, glew33 := true, compileLog := fun _ => none,
    linkLog := fun _ => none, objParseOk := true, fbComplete := true,
    fbComplete2 := true }

/-- Witness for the amended C4 at the all-successful environment. -/
theorem c4_error_handling_amended_witness :
    run_part_000 envAllOk = RunOutcome.success :=
  (c4_error_handling_amended envAllOk).1 run_part_000 (by simp [programRuns])
    ⟨rfl, rfl, rfl, rfl, rfl, fun _ => rfl, fun _ => rfl, rfl, rfl, rfl⟩

/-- Witness for C6 at a concrete distance function, glyph function and
frame sequences. -/
theorem c6_upload_size_matches_witness :
    (metaballAllocationAt metaDimension).2.length
      = metaDimension * metaDimension :=
  (c6_upload_size_matches c8wHyp (fun _ => ⟨(0, 0), (0, 0)⟩)
    [[BezEvent.leftClick 0 0]]
    [([MsdfEvent.keyReturn], false)]).2.2.2.2.2.1 metaDimension

/-- Witness for C9 at a concrete distance function and frame sequence. -/
theorem c9_quality_at_least_one_witness :
    1 ≤ (runBez c8wHyp [[BezEvent.keyLeft, BezEvent.keyLeft]]).quality :=
  (c9_quality_at_least_one c8wHyp
    [[BezEvent.keyLeft, BezEvent.keyLeft]]).2.2.2.1

end GCP
